import Mathlib

/-!
# josephGuo/oauth2: `const.go`, the Redis token store (`store/redis.go`), the client form
handler (`server/handler.go`) and the user-authorization hook of the example server

A shallow embedding of the Go sources.

* Go `string` values of `const.go`, of the handlers and of the example server are Lean
  `String`s (text that is valid UTF-8); `[]byte(s)` is the UTF-8 encoding of `s`, as a list
  of byte values.
* The strings of the token store (`store/redis.go`) are byte sequences, `Bytes`: a Go string
  holds any bytes, Redis keeps keys and values byte by byte, and `json` writes a byte that
  is not part of valid UTF-8 as U+FFFD. A text literal stands for its UTF-8 bytes.
* `crypto/sha256`, `encoding/base64` and `strings.TrimRight` are standard library
  functions; they are written out here so that `Validate` can be evaluated.
* `float64` values are exact dyadic numbers `m * 2 ^ e`, and every float64 operation
  rounds its exact result to the nearest value with a 53-bit significand, ties to even
  (IEEE 754 binary64; the values that occur are far from overflow and underflow).
* `time.Time` is a number of nanoseconds on one time line, `time.Duration` a number of
  nanoseconds.
* The Redis server behind `clienter` is a finite map from keys to entries. Keys do not
  expire in the model: each entry records the expiration that its `SET` was given.
  The server always answers; the only errors are `redis.Nil` and those of `json`.
* `json.Marshal` / `json.Unmarshal` on `models.Token` and the random source of
  `uuid.NewRandom` are inputs of the model. Decoding what `json` encoded gives the record
  with each string made valid UTF-8 (`Token.readBack`).
* A `[]byte` form value is the text it holds. The session store of the example server is
  a list of keys with values of type `interface{}`; a call either returns or panics.
-/

set_option autoImplicit false

namespace OAuth2

/-- Go `string`, where it holds text. -/
abbrev GoString := String

/-! ## Standard library: `strings`, `crypto/sha256`, `encoding/base64` -/

/-- Go `[]byte(s)`: the UTF-8 bytes of a string, as natural numbers below 256. -/
def bytesOf (s : String) : List Nat :=
  (s.data.flatMap String.utf8EncodeChar).map UInt8.toNat

/-- Go `strings.TrimRight(s, cutset)`: `s` without the trailing code points that
occur in `cutset`. -/
def TrimRight (s cutset : String) : String :=
  ⟨s.data.rdropWhile (fun c => cutset.data.contains c)⟩

/-- Big-endian bytes of a number: the `n` lowest bytes, most significant first. -/
def beBytes : Nat → Nat → List Nat
  | 0, _ => []
  | n + 1, x => (x >>> (8 * n)) % 256 :: beBytes n x

namespace sha256

/-- Round constants of SHA-256 (FIPS 180-4, section 4.2.2). -/
def K : List Nat :=
  [0x428a2f98, 0x71374491, 0xb5c0fbcf, 0xe9b5dba5, 0x3956c25b, 0x59f111f1, 0x923f82a4, 0xab1c5ed5,
   0xd807aa98, 0x12835b01, 0x243185be, 0x550c7dc3, 0x72be5d74, 0x80deb1fe, 0x9bdc06a7, 0xc19bf174,
   0xe49b69c1, 0xefbe4786, 0x0fc19dc6, 0x240ca1cc, 0x2de92c6f, 0x4a7484aa, 0x5cb0a9dc, 0x76f988da,
   0x983e5152, 0xa831c66d, 0xb00327c8, 0xbf597fc7, 0xc6e00bf3, 0xd5a79147, 0x06ca6351, 0x14292967,
   0x27b70a85, 0x2e1b2138, 0x4d2c6dfc, 0x53380d13, 0x650a7354, 0x766a0abb, 0x81c2c92e, 0x92722c85,
   0xa2bfe8a1, 0xa81a664b, 0xc24b8b70, 0xc76c51a3, 0xd192e819, 0xd6990624, 0xf40e3585, 0x106aa070,
   0x19a4c116, 0x1e376c08, 0x2748774c, 0x34b0bcb5, 0x391c0cb3, 0x4ed8aa4a, 0x5b9cca4f, 0x682e6ff3,
   0x748f82ee, 0x78a5636f, 0x84c87814, 0x8cc70208, 0x90befffa, 0xa4506ceb, 0xbef9a3f7, 0xc67178f2]

/-- Initial hash value of SHA-256 (FIPS 180-4, section 5.3.3). -/
def H0 : List Nat :=
  [0x6a09e667, 0xbb67ae85, 0x3c6ef372, 0xa54ff53a, 0x510e527f, 0x9b05688c, 0x1f83d9ab, 0x5be0cd19]

/-- Addition of 32-bit words. -/
def add32 (x y : Nat) : Nat := (x + y) % 4294967296

/-- Rotation to the right of a 32-bit word. -/
def rotr (x n : Nat) : Nat := ((x >>> n) ||| (x <<< (32 - n))) % 4294967296

/-- Message padding: a `0x80` byte, zero bytes up to 56 modulo 64, and the bit length
as a 64-bit big-endian number. -/
def pad (msg : List Nat) : List Nat :=
  msg ++ [0x80] ++ List.replicate ((119 - msg.length % 64) % 64) 0 ++ beBytes 8 (8 * msg.length)

/-- Big-endian 32-bit words of a byte sequence. -/
def toWords : List Nat → List Nat
  | a :: b :: c :: d :: rest => (a * 16777216 + b * 65536 + c * 256 + d) :: toWords rest
  | _ => []

/-- The first `n` blocks of 16 words. -/
def blocks : Nat → List Nat → List (List Nat)
  | 0, _ => []
  | n + 1, ws => ws.take 16 :: blocks n (ws.drop 16)

/-- Message schedule: `n` more words after those of `w`. -/
def schedule : Nat → List Nat → List Nat
  | 0, w => w
  | n + 1, w =>
    let i := w.length
    let w15 := w.getD (i - 15) 0
    let w2 := w.getD (i - 2) 0
    let s0 := rotr w15 7 ^^^ rotr w15 18 ^^^ (w15 >>> 3)
    let s1 := rotr w2 17 ^^^ rotr w2 19 ^^^ (w2 >>> 10)
    schedule n (w ++ [add32 (add32 (add32 (w.getD (i - 16) 0) s0) (w.getD (i - 7) 0)) s1])

/-- One round of the compression function on the working variables `a` .. `h`. -/
def round (v : List Nat) (kw : Nat × Nat) : List Nat :=
  match v with
  | [a, b, c, d, e, f, g, h] =>
    let S1 := rotr e 6 ^^^ rotr e 11 ^^^ rotr e 25
    let ch := (e &&& f) ^^^ ((e ^^^ 4294967295) &&& g)
    let temp1 := add32 (add32 (add32 (add32 h S1) ch) kw.1) kw.2
    let S0 := rotr a 2 ^^^ rotr a 13 ^^^ rotr a 22
    let maj := (a &&& b) ^^^ (a &&& c) ^^^ (b &&& c)
    let temp2 := add32 S0 maj
    [add32 temp1 temp2, a, b, c, add32 d temp1, e, f, g]
  | _ => v

/-- The compression function: the hash value after one more block. -/
def compress (h : List Nat) (block : List Nat) : List Nat :=
  List.zipWith add32 h ((K.zip (schedule 48 block)).foldl round h)

/-- Go `sha256.Sum256`: the 32 bytes of the SHA-256 digest of a byte sequence. -/
def Sum256 (data : List Nat) : List Nat :=
  let p := pad data
  ((blocks (p.length / 64) (toWords p)).foldl compress H0).flatMap (beBytes 4)

end sha256

namespace base64

/-- The URL-safe alphabet of RFC 4648. -/
def encodeURL : List Char :=
  "ABCDEFGHIJKLMNOPQRSTUVWXYZabcdefghijklmnopqrstuvwxyz0123456789-_".data

/-- The character of a 6-bit value. -/
def enc (n : Nat) : Char := encodeURL.getD (n % 64) 'A'

/-- The encoding of a byte sequence with `=` padding, as characters. -/
def encode : List Nat → List Char
  | a :: b :: c :: rest =>
    let n := a * 65536 + b * 256 + c
    enc (n >>> 18) :: enc (n >>> 12) :: enc (n >>> 6) :: enc n :: encode rest
  | [a, b] =>
    let n := a * 65536 + b * 256
    [enc (n >>> 18), enc (n >>> 12), enc (n >>> 6), '=']
  | [a] =>
    let n := a * 65536
    [enc (n >>> 18), enc (n >>> 12), '=', '=']
  | [] => []

/-- Go `base64.URLEncoding.EncodeToString`. -/
def EncodeToString (src : List Nat) : String := ⟨encode src⟩

end base64

/-! ## `const.go` -/

/-- Go `type CodeChallengeMethod string`. -/
abbrev CodeChallengeMethod := String

/-- The PKCE method `plain`. -/
def CodeChallengePlain : CodeChallengeMethod := "plain"

/-- The PKCE method `S256`. -/
def CodeChallengeS256 : CodeChallengeMethod := "S256"

/-- Go `CodeChallengeMethod.Validate`: the `switch` on the method. -/
def Validate (ccm : CodeChallengeMethod) (cc ver : String) : Bool :=
  if ccm = CodeChallengePlain then
    cc == ver
  else if ccm = CodeChallengeS256 then
    let s256 := sha256.Sum256 (bytesOf ver)
    let a := TrimRight (base64.EncodeToString s256) "="
    let b := TrimRight cc "="
    a == b
  else
    false

/-- Go `type GrantType string`. -/
abbrev GrantType := String

/-- The grant `authorization_code`. -/
def AuthorizationCode : GrantType := "authorization_code"

/-- The grant `password`. -/
def PasswordCredentials : GrantType := "password"

/-- The grant `client_credentials`. -/
def ClientCredentials : GrantType := "client_credentials"

/-- The grant `refresh_token`. -/
def Refreshing : GrantType := "refresh_token"

/-- The grant `__implicit`. -/
def Implicit : GrantType := "__implicit"

/-- Go `GrantType.String`. -/
def GrantType.String (gt : GrantType) : GoString :=
  if gt = AuthorizationCode ∨
      gt = PasswordCredentials ∨
      gt = ClientCredentials ∨
      gt = Refreshing then
    gt
  else
    ""

/-- A Go `[]byte` value, by the text it holds; `nil` and the empty slice are the empty
text. -/
abbrev ByteSlice := String

/-- Go `B2s`: the string that shares the bytes of the slice. -/
def B2s (b : ByteSlice) : GoString := b

/-! ## Standard library: `float64` and `time` -/

/-- Number of binary digits of `n`, given at least that much fuel. -/
def bitLen : Nat → Nat → Nat
  | 0, _ => 0
  | fuel + 1, n => if n = 0 then 0 else bitLen fuel (n / 2) + 1

/-- A finite `float64` value, the number `m * 2 ^ e`. -/
structure Float64 where
  m : Int
  e : Int
deriving DecidableEq, Repr

namespace Float64

/-- The float64 nearest to the fraction `num / den` (`den` positive): the significand is
`num / den` scaled into `[2 ^ 52, 2 ^ 53)` and rounded to an integer, ties to even. -/
def round (num : Int) (den : Nat) : Float64 :=
  if num = 0 then ⟨0, 0⟩ else
    let p := num.natAbs
    let k : Int := (bitLen p p : Int) - (bitLen den den : Int)
    let fl : Int := if den * 2 ^ k.toNat ≤ p * 2 ^ (-k).toNat then k else k - 1
    let e := fl - 52
    let N := p * 2 ^ (-e).toNat
    let D := den * 2 ^ e.toNat
    let m := N / D
    let r := N % D
    let m1 := if D < 2 * r ∨ (2 * r = D ∧ m % 2 = 1) then m + 1 else m
    ⟨num.sign * m1, e⟩

/-- Go `float64(n)` for an integer `n`. -/
def ofInt (n : Int) : Float64 := round n 1

/-- Go `x + y` on float64. -/
def add (x y : Float64) : Float64 :=
  let e := min x.e y.e
  round ((x.m * 2 ^ (x.e - e).toNat + y.m * 2 ^ (y.e - e).toNat) * 2 ^ e.toNat) (2 ^ (-e).toNat)

/-- Go `x / y` on float64, for `y` other than zero. -/
def div (x y : Float64) : Float64 :=
  round (y.m.sign * x.m * 2 ^ (x.e - y.e).toNat) (y.m.natAbs * 2 ^ (y.e - x.e).toNat)

/-- Go `x < y` on float64. -/
def lt (x y : Float64) : Bool :=
  let e := min x.e y.e
  decide (x.m * 2 ^ (x.e - e).toNat < y.m * 2 ^ (y.e - e).toNat)

end Float64

/-- Go `time.Duration`: a number of nanoseconds (an `int64`). -/
abbrev Duration := Int

/-- Go `time.Time`: nanoseconds since the epoch. -/
abbrev Time := Int

/-- The smallest `time.Duration`. -/
def minDuration : Duration := -9223372036854775808

/-- The largest `time.Duration`. -/
def maxDuration : Duration := 9223372036854775807

/-- Go `Duration.Seconds`: `float64(d / Second) + float64(d % Second) / 1e9`, where `/` and
`%` on integers truncate towards zero. -/
def Seconds (d : Duration) : Float64 :=
  let sec := Int.tdiv d 1000000000
  let nsec := Int.tmod d 1000000000
  Float64.add (Float64.ofInt sec) (Float64.div (Float64.ofInt nsec) (Float64.ofInt 1000000000))

/-- Go `Time.Add`. -/
def Time.Add (t : Time) (d : Duration) : Time := t + d

/-- Go `Time.Sub`: the difference `t - u`, or the largest or smallest duration when the
difference does not fit. -/
def Time.Sub (t u : Time) : Duration :=
  if t - u < minDuration then minDuration
  else if maxDuration < t - u then maxDuration
  else t - u

/-! ## `github.com/google/uuid` -/

namespace uuid

/-- Lower-case hexadecimal digits. -/
def hexDigits : List Char := "0123456789abcdef".data

/-- The two hexadecimal digits of a byte. -/
def hexByte (b : Nat) : List Char := [hexDigits.getD (b / 16 % 16) '0', hexDigits.getD (b % 16) '0']

/-- Go `uuid.NewRandom`: 16 random bytes (here the bytes of the number `rnd`) with the
version (4) and variant bits set. -/
def NewRandom (rnd : Nat) : List Nat :=
  List.zipWith (fun (i b : Nat) =>
      if i = 6 then (b &&& 0x0f) ||| 0x40
      else if i = 8 then (b &&& 0x3f) ||| 0x80
      else b) (List.range 16) (beBytes 16 rnd)

/-- Go `UUID.String`: the form `xxxxxxxx-xxxx-xxxx-xxxx-xxxxxxxxxxxx`. -/
def String (u : List Nat) : GoString :=
  ⟨(u.take 4).flatMap hexByte ++ '-' :: ((u.drop 4).take 2).flatMap hexByte ++
    '-' :: ((u.drop 6).take 2).flatMap hexByte ++ '-' :: ((u.drop 8).take 2).flatMap hexByte ++
    '-' :: (u.drop 10).flatMap hexByte⟩

end uuid

/-! ## Go strings as byte sequences, and the strings that `json` gives back -/

/-- A Go `string` of the store, as the sequence of its bytes. A Go string holds any bytes;
the store keeps its strings as Redis keys and inside JSON, and JSON text holds valid UTF-8
only, so the bytes matter here. -/
abbrev Bytes := List UInt8

/-- The Go string of a text: its UTF-8 bytes. -/
def Bytes.ofString (s : String) : Bytes := s.data.flatMap String.utf8EncodeChar

instance : Coe String Bytes := ⟨Bytes.ofString⟩

/-- Go `utf8.DecodeRune`, as far as the size goes: the number of bytes of the UTF-8
sequence at the head of `bs`, and 0 when the head is not the start of a valid sequence
(where `DecodeRune` returns `RuneError` with size 1). -/
def utf8SeqLen : Bytes → Nat
  | [] => 0
  | b0 :: rest =>
    if b0 < 0x80 then 1
    else if 0xC2 ≤ b0 ∧ b0 ≤ 0xDF then
      match rest with
      | b1 :: _ => if 0x80 ≤ b1 ∧ b1 ≤ 0xBF then 2 else 0
      | _ => 0
    else if 0xE0 ≤ b0 ∧ b0 ≤ 0xEF then
      match rest with
      | b1 :: b2 :: _ =>
        if (if b0 = 0xE0 then 0xA0 else 0x80) ≤ b1 ∧ b1 ≤ (if b0 = 0xED then 0x9F else 0xBF) ∧
            0x80 ≤ b2 ∧ b2 ≤ 0xBF then 3 else 0
      | _ => 0
    else if 0xF0 ≤ b0 ∧ b0 ≤ 0xF4 then
      match rest with
      | b1 :: b2 :: b3 :: _ =>
        if (if b0 = 0xF0 then 0x90 else 0x80) ≤ b1 ∧ b1 ≤ (if b0 = 0xF4 then 0x8F else 0xBF) ∧
            0x80 ≤ b2 ∧ b2 ≤ 0xBF ∧ 0x80 ≤ b3 ∧ b3 ≤ 0xBF then 4 else 0
      | _ => 0
    else 0

/-- The string that `json.Unmarshal` reads from what `json.Marshal` wrote for `bs`, with at
most `fuel` steps: a valid UTF-8 sequence is kept, and a byte that starts no valid sequence
is written as the escape of U+FFFD and so read back as the bytes `EF BF BD`. -/
def toValidUTF8Aux : Nat → Bytes → Bytes
  | 0, _ => []
  | fuel + 1, bs =>
    match bs with
    | [] => []
    | _ :: rest =>
      if utf8SeqLen bs = 0 then 0xEF :: 0xBF :: 0xBD :: toValidUTF8Aux fuel rest
      else bs.take (utf8SeqLen bs) ++ toValidUTF8Aux fuel (bs.drop (utf8SeqLen bs))

/-- The string that `json` gives back for `bs` (each step takes at least one byte, so the
length of `bs` is fuel enough). -/
def toValidUTF8 (bs : Bytes) : Bytes := toValidUTF8Aux bs.length bs

/-- Valid UTF-8: a string that `json` gives back as it is. -/
def ValidUTF8 (bs : Bytes) : Prop := toValidUTF8 bs = bs

instance (bs : Bytes) : Decidable (ValidUTF8 bs) := by
  unfold ValidUTF8
  infer_instance

/-- The basic identifier that `Create` draws: `uuid.Must(uuid.NewRandom()).String()`, for
the random source `rnd`. -/
def newBasicID (rnd : Nat) : Bytes := Bytes.ofString (uuid.String (uuid.NewRandom rnd))

/-! ## `store/redis.go` -/

/-- Go `error` values of the store: the sentinel `redis.Nil`, and any other error. -/
inductive Error where
  | Nil
  | other (msg : String)
deriving DecidableEq, Repr

/-- Modelled from the spec: the record type `models.Token` behind the interface
`oauth2.TokenInfo` (neither declaration is among the sources); its fields are those of
TokenInfo in section 3 of the specification. -/
structure Token where
  ClientID : Bytes
  UserID : Bytes
  RedirectURI : Bytes
  Scope : Bytes
  Code : Bytes
  CodeCreateAt : Time
  CodeExpiresIn : Duration
  CodeChallenge : Bytes
  CodeChallengeMethod : Bytes
  Access : Bytes
  AccessCreateAt : Time
  AccessExpiresIn : Duration
  Refresh : Bytes
  RefreshCreateAt : Time
  RefreshExpiresIn : Duration
  Extension : List (Bytes × Bytes)
deriving DecidableEq, Repr

/-- The record that `json` gives back for `t`: every string of `t` as `json` gives it
back, times and durations as they are. -/
def Token.readBack (t : Token) : Token :=
  { t with
    ClientID := toValidUTF8 t.ClientID
    UserID := toValidUTF8 t.UserID
    RedirectURI := toValidUTF8 t.RedirectURI
    Scope := toValidUTF8 t.Scope
    Code := toValidUTF8 t.Code
    CodeChallenge := toValidUTF8 t.CodeChallenge
    CodeChallengeMethod := toValidUTF8 t.CodeChallengeMethod
    Access := toValidUTF8 t.Access
    Refresh := toValidUTF8 t.Refresh
    Extension := t.Extension.map (fun p => (toValidUTF8 p.1, toValidUTF8 p.2)) }

/-- The package `json` on `models.Token`: `Marshal` and `Unmarshal` with the two facts
about them that the store relies on. Decoding the encoding of a record gives the record
with its strings as `json` gives them back (the record itself when its strings are valid
UTF-8), and the encoding of a record is a JSON object, so it starts with an opening
brace. -/
structure JSON where
  Marshal : Token → Except Error Bytes
  Unmarshal : Bytes → Except Error Token
  roundtrip : ∀ t jv, Marshal t = .ok jv → Unmarshal jv = .ok t.readBack
  object : ∀ t jv, Marshal t = .ok jv → jv.head? = some 123

/-- An entry of the Redis server: the value, and the expiration its `SET` was given. -/
structure Entry where
  val : Bytes
  expiration : Duration
deriving DecidableEq, Repr

/-- The state of the Redis server: the entry of each key, if any. -/
abbrev Redis := Bytes → Option Entry

/-- The Redis server without keys. -/
def emptyRedis : Redis := fun _ => none

/-- Go `*redis.StringCmd`: the reply to `GET`. -/
structure StringCmd where
  val : Bytes
  err : Option Error
deriving DecidableEq, Repr

/-- Go `*redis.IntCmd`: the reply to `EXISTS` and `DEL`. -/
structure IntCmd where
  val : Int
  err : Option Error
deriving DecidableEq, Repr

/-- A queued `SET key val` with its expiration. -/
structure SetArgs where
  key : Bytes
  val : Bytes
  expiration : Duration
deriving DecidableEq, Repr

namespace clienter

/-- Redis `GET`: the value of the key, or the error `redis.Nil` when there is none. -/
def Get (db : Redis) (key : Bytes) : StringCmd :=
  match db key with
  | some e => ⟨e.val, none⟩
  | none => ⟨"", some Error.Nil⟩

/-- Redis `EXISTS` on one key: 1 when the key is there, 0 when not. -/
def Exists (db : Redis) (key : Bytes) : IntCmd :=
  ⟨if (db key).isSome then 1 else 0, none⟩

/-- Redis `DEL` on one key: the number of keys removed, and the state without the key. -/
def Del (db : Redis) (key : Bytes) : IntCmd × Redis :=
  (⟨if (db key).isSome then 1 else 0, none⟩, Function.update db key none)

end clienter

namespace Pipeliner

/-- Redis `SET` with an expiration. -/
def Set (db : Redis) (c : SetArgs) : Redis :=
  Function.update db c.key (some ⟨c.val, c.expiration⟩)

/-- Go `pipe.Exec` of a transaction pipeline: the queued commands, in order. -/
def Exec (db : Redis) (pipe : List SetArgs) : Redis :=
  pipe.foldl Set db

end Pipeliner

/-- Go `RedisTokenStore`: the key namespace (the client is the state `Redis`, passed to and
returned by the operations). -/
structure RedisTokenStore where
  ns : Bytes

namespace RedisTokenStore

/-- Go `wrapperKey`. -/
def wrapperKey (s : RedisTokenStore) (key : Bytes) : Bytes :=
  s.ns ++ key

/-- Go `checkError`, on the error of a reply. -/
def checkError (err : Option Error) : Bool × Option Error :=
  match err with
  | some err => if err = Error.Nil then (true, none) else (false, some err)
  | none => (false, none)

/-- Go `remove`. -/
def remove (s : RedisTokenStore) (db : Redis) (key : Bytes) : Option Error × Redis :=
  let result := clienter.Del db (s.wrapperKey key)
  ((checkError result.1.err).2, result.2)

/-- Go `parseToken`. -/
def parseToken (J : JSON) (result : StringCmd) : Option Token × Option Error :=
  match checkError result.err with
  | (_, some err) => (none, some err)
  | (true, none) => (none, none)
  | (false, none) =>
    match result.err with
    | some err => if err = Error.Nil then (none, none) else (none, some err)
    | none =>
      match J.Unmarshal result.val with
      | .error err => (none, some err)
      | .ok token => (some token, none)

/-- Go `getToken`. -/
def getToken (J : JSON) (s : RedisTokenStore) (db : Redis) (key : Bytes) :
    Option Token × Option Error :=
  parseToken J (clienter.Get db (s.wrapperKey key))

/-- Go `parseBasicID`. -/
def parseBasicID (result : StringCmd) : Bytes × Option Error :=
  match checkError result.err with
  | (_, some err) => ("", some err)
  | (true, none) => ("", none)
  | (false, none) => (result.val, none)

/-- Go `getBasicID`. -/
def getBasicID (s : RedisTokenStore) (db : Redis) (token : Bytes) : Bytes × Option Error :=
  parseBasicID (clienter.Get db (s.wrapperKey token))

/-- Go `removeToken`. -/
def removeToken (J : JSON) (s : RedisTokenStore) (db : Redis) (tokenString : Bytes)
    (isRefresh : Bool) : Option Error × Redis :=
  match s.getBasicID db tokenString with
  | (_, some err) => (some err, db)
  | (basicID, none) =>
    if basicID = "" then (none, db)
    else
      match s.remove db tokenString with
      | (some err, db1) => (some err, db1)
      | (none, db1) =>
        match s.getToken J db1 basicID with
        | (_, some err) => (some err, db1)
        | (none, none) => (none, db1)
        | (some token, none) =>
          let checkToken := if isRefresh then token.Access else token.Refresh
          let iresult := clienter.Exists db1 (s.wrapperKey checkToken)
          if iresult.err ≠ none ∧ iresult.err ≠ some Error.Nil then (iresult.err, db1)
          else if iresult.val = 0 then s.remove db1 basicID
          else (none, db1)

/-- The commands that `Create` queues on the pipeline, for the encoding `jv` of `info`, the
time `ct` of `time.Now()` and the random source `rnd` of `uuid.NewRandom`. -/
def createPipe (s : RedisTokenStore) (ct : Time) (rnd : Nat) (info : Token) (jv : Bytes) :
    List SetArgs :=
  if info.Code ≠ "" then
    [⟨s.wrapperKey info.Code, jv, info.CodeExpiresIn⟩]
  else
    let basicID := newBasicID rnd
    let aexp := info.AccessExpiresIn
    if info.Refresh ≠ "" then
      let rexp := Time.Sub (Time.Add info.RefreshCreateAt info.RefreshExpiresIn) ct
      let aexp := if Float64.lt (Seconds rexp) (Seconds aexp) then rexp else aexp
      [⟨s.wrapperKey info.Refresh, basicID, rexp⟩,
       ⟨s.wrapperKey info.Access, basicID, aexp⟩,
       ⟨s.wrapperKey basicID, jv, rexp⟩]
    else
      let rexp := aexp
      [⟨s.wrapperKey info.Access, basicID, aexp⟩,
       ⟨s.wrapperKey basicID, jv, rexp⟩]

/-- Go `Create`. -/
def Create (J : JSON) (s : RedisTokenStore) (db : Redis) (ct : Time) (rnd : Nat)
    (info : Token) : Option Error × Redis :=
  match J.Marshal info with
  | .error err => (some err, db)
  | .ok jv => (none, Pipeliner.Exec db (s.createPipe ct rnd info jv))

/-- Go `RemoveByCode`. -/
def RemoveByCode (s : RedisTokenStore) (db : Redis) (code : Bytes) : Option Error × Redis :=
  s.remove db code

/-- Go `RemoveByAccess`. -/
def RemoveByAccess (J : JSON) (s : RedisTokenStore) (db : Redis) (access : Bytes) :
    Option Error × Redis :=
  s.removeToken J db access false

/-- Go `RemoveByRefresh`. -/
def RemoveByRefresh (J : JSON) (s : RedisTokenStore) (db : Redis) (refresh : Bytes) :
    Option Error × Redis :=
  s.removeToken J db refresh true

/-- Go `GetByCode`. -/
def GetByCode (J : JSON) (s : RedisTokenStore) (db : Redis) (code : Bytes) :
    Option Token × Option Error :=
  s.getToken J db code

/-- Go `GetByAccess`. -/
def GetByAccess (J : JSON) (s : RedisTokenStore) (db : Redis) (access : Bytes) :
    Option Token × Option Error :=
  match s.getBasicID db access with
  | (basicID, err) =>
    if err ≠ none ∨ basicID = "" then (none, err)
    else s.getToken J db basicID

/-- Go `GetByRefresh`. -/
def GetByRefresh (J : JSON) (s : RedisTokenStore) (db : Redis) (refresh : Bytes) :
    Option Token × Option Error :=
  match s.getBasicID db refresh with
  | (basicID, err) =>
    if err ≠ none ∨ basicID = "" then (none, err)
    else s.getToken J db basicID

end RedisTokenStore

/-! ## `server/handler.go` -/

/-- Modelled from the spec: the sentinel `errors.ErrInvalidClient` (the package `errors` is
not among the sources), the error kind `invalid_client` of section 7. -/
def ErrInvalidClient : Error := .other "invalid_client"

/-- Hertz `app.RequestContext`, as `ClientFormHandler` reads it: the form value of each
key (`nil`, the empty text, for a key without value). -/
structure RequestContext where
  FormValue : String → ByteSlice

/-- Go `ClientFormHandler`. -/
def ClientFormHandler (rctx : RequestContext) : String × String × Option Error :=
  let clientID := B2s (rctx.FormValue "client_id")
  if clientID = "" then
    ("", "", some ErrInvalidClient)
  else
    let clientSecret := B2s (rctx.FormValue "client_secret")
    (clientID, clientSecret, none)

/-! ## `example/server/server.go` -/

/-- Go `url.Values`. -/
abbrev Values := List (String × List String)

/-- The values of type `interface{}` that the example keeps in a session: a string (the
user id) or form values (the return URI). -/
inductive Value where
  | str (s : String)
  | values (v : Values)
deriving DecidableEq, Repr

/-- The store of a session (`fastsession`): the keys with their values. -/
abbrev SessionStore := List (String × Value)

namespace SessionStore

/-- Go `store.Get`: the value of the key, `nil` when there is none. -/
def Get (st : SessionStore) (key : String) : Option Value :=
  match st with
  | [] => none
  | (k, v) :: rest => if k = key then some v else Get rest key

/-- Go `store.Delete`. -/
def Delete (st : SessionStore) (key : String) : SessionStore :=
  st.filter (fun p => p.1 ≠ key)

/-- Go `store.Set`. -/
def Set (st : SessionStore) (key : String) (v : Value) : SessionStore :=
  (key, v) :: Delete st key

end SessionStore

/-- The outcome of a call: it returns, or it panics. -/
inductive Outcome (α : Type) where
  | returned (a : α)
  | panicked (msg : String)
deriving DecidableEq, Repr

/-- Go `uid.(string)`: the string of an `interface{}` value; a panic for `nil` and for a
value of another type. -/
def assertString (uid : Option Value) : Outcome String :=
  match uid with
  | some (.str s) => .returned s
  | some (.values _) =>
    .panicked "interface conversion: interface is url.Values, not string"
  | none => .panicked "interface conversion: interface is nil, not string"

/-- What `userAuthorizeHandler` reads and writes: the form of the request (`r.Form`, and
the form that `r.ParseForm()` reads from the request), the store of the session, the store
as `session.Save` last saved it, and the headers and status code of the response. -/
structure HandlerState where
  Form : Option Values
  parsedForm : Values
  store : SessionStore
  saved : SessionStore
  header : List (String × String)
  statusCode : Nat
deriving DecidableEq, Repr

/-- Go `Header.Set`. -/
def headerSet (h : List (String × String)) (key val : String) : List (String × String) :=
  (key, val) :: h.filter (fun p => p.1 ≠ key)

/-- Go `http.StatusFound`. -/
def StatusFound : Nat := 302

/-- Go `userAuthorizeHandler` (the dump of the request to standard output left out): the
results `userID` and `err`, and the state after the call. -/
def userAuthorizeHandler (st : HandlerState) : Outcome (String × Option Error × HandlerState) :=
  let userID := ""
  let err : Option Error := none
  if err ≠ none then .returned (userID, err, st)
  else
    let uid := st.store.Get "LoggedInUserID"
    if uid ≠ none then
      let form := match st.Form with
        | none => st.parsedForm
        | some f => f
      let store := st.store.Set "ReturnUri" (.values form)
      .returned (userID, err,
        { st with Form := some form, store := store, saved := store,
                  header := headerSet st.header "Location" "/login",
                  statusCode := StatusFound })
    else
      match assertString uid with
      | .panicked msg => .panicked msg
      | .returned userID =>
        let store := st.store.Delete "LoggedInUserID"
        .returned (userID, err, { st with store := store, saved := store })

/-- Go `authHandler`, up to its check of the session: the redirect to `/login` when the
store holds no `LoggedInUserID`; `none` when the handler goes on to render the page. -/
def authHandlerRedirect (st : HandlerState) : Option HandlerState :=
  if st.store.Get "LoggedInUserID" = none then
    some { st with header := headerSet st.header "Location" "/login", statusCode := StatusFound }
  else
    none

/-! ## Invariant I1 and the states of the store -/

/-- A string that `Create` can draw as basic identifier. -/
def IsBasicID (v : Bytes) : Prop := ∃ rnd, v = newBasicID rnd

/-- A basic identifier in use: a basic identifier that is the value of some key. -/
def InUse (db : Redis) (v : Bytes) : Prop :=
  IsBasicID v ∧ ∃ k e, db k = some e ∧ e.val = v

/-- Invariant I1, no dangling pointer: whenever a key holds a basic identifier, `getToken`
finds the full record of that identifier. -/
def NoDangling (J : JSON) (s : RedisTokenStore) (db : Redis) : Prop :=
  ∀ k e, db k = some e → IsBasicID e.val → ∃ t, s.getToken J db e.val = (some t, none)

/-- Every key that holds a basic identifier is the access key or the refresh key of the
record that the identifier holds. -/
def Linked (J : JSON) (s : RedisTokenStore) (db : Redis) : Prop :=
  ∀ k e, db k = some e → IsBasicID e.val →
    ∃ e1 t, db (s.wrapperKey e.val) = some e1 ∧ J.Unmarshal e1.val = .ok t ∧
      (k = s.wrapperKey t.Access ∨ k = s.wrapperKey t.Refresh)

/-- The states reached from the empty store by `Create`, `RemoveByCode`, `RemoveByAccess`
and `RemoveByRefresh` with arbitrary arguments, where each `Create` draws a basic identifier
that is not yet a key and is none of the tokens of its record. -/
inductive Reachable (J : JSON) (s : RedisTokenStore) : Redis → Prop
  | empty : Reachable J s emptyRedis
  | create {db : Redis} (ct : Time) (rnd : Nat) (info : Token) :
      Reachable J s db → db (s.wrapperKey (newBasicID rnd)) = none →
      newBasicID rnd ≠ info.Access → newBasicID rnd ≠ info.Refresh →
      Reachable J s (s.Create J db ct rnd info).2
  | removeByCode {db : Redis} (code : Bytes) :
      Reachable J s db → Reachable J s (s.RemoveByCode db code).2
  | removeByAccess {db : Redis} (access : Bytes) :
      Reachable J s db → Reachable J s (s.RemoveByAccess J db access).2
  | removeByRefresh {db : Redis} (refresh : Bytes) :
      Reachable J s db → Reachable J s (s.RemoveByRefresh J db refresh).2

/-- The states reached from the empty store when the callers keep the kinds of keys apart
and create records with tokens that are valid UTF-8: no call is given a basic identifier in
use as code or token, `RemoveByAccess` is called on a string that resolves to a record only
if it is the access token of that record, and `RemoveByRefresh` only if it is its refresh
token. -/
inductive Disciplined (J : JSON) (s : RedisTokenStore) : Redis → Prop
  | empty : Disciplined J s emptyRedis
  | create {db : Redis} (ct : Time) (rnd : Nat) (info : Token) :
      Disciplined J s db → db (s.wrapperKey (newBasicID rnd)) = none →
      newBasicID rnd ≠ info.Access → newBasicID rnd ≠ info.Refresh →
      ¬ InUse db info.Code → ¬ InUse db info.Access → ¬ InUse db info.Refresh →
      ValidUTF8 info.Access → ValidUTF8 info.Refresh →
      Disciplined J s (s.Create J db ct rnd info).2
  | removeByCode {db : Redis} (code : Bytes) :
      Disciplined J s db → ¬ InUse db code → Disciplined J s (s.RemoveByCode db code).2
  | removeByAccess {db : Redis} (access : Bytes) :
      Disciplined J s db → ¬ InUse db access →
      (∀ e t, db (s.wrapperKey access) = some e →
        s.getToken J db e.val = (some t, none) → t.Access = access) →
      Disciplined J s (s.RemoveByAccess J db access).2
  | removeByRefresh {db : Redis} (refresh : Bytes) :
      Disciplined J s db → ¬ InUse db refresh →
      (∀ e t, db (s.wrapperKey refresh) = some e →
        s.getToken J db e.val = (some t, none) → t.Refresh = refresh) →
      Disciplined J s (s.RemoveByRefresh J db refresh).2

/-! ## Sample data -/

/-- A record with an access and a refresh token: two hours of access, seven days of
refresh. -/
def sampleToken : Token :=
  { ClientID := "111111", UserID := "u1", RedirectURI := "http://localhost/oauth2",
    Scope := "all", Code := "", CodeCreateAt := 0, CodeExpiresIn := 0, CodeChallenge := "",
    CodeChallengeMethod := "", Access := "A", AccessCreateAt := 1000,
    AccessExpiresIn := 7200000000000, Refresh := "R", RefreshCreateAt := 1000,
    RefreshExpiresIn := 604800000000000, Extension := [] }

/-- A record with an authorization code of ten minutes (and tokens, which `Create` does
not look at). -/
def sampleCodeToken : Token :=
  { sampleToken with Code := "C", CodeCreateAt := 1000, CodeExpiresIn := 600000000000 }

/-- A record whose access and refresh lifetimes are both 20000000 seconds. -/
def longLivedToken : Token :=
  { sampleToken with AccessExpiresIn := 20000000000000000,
                     RefreshExpiresIn := 20000000000000000 }

/-- A record whose refresh token is not valid UTF-8: the byte `FF`, then `R`. -/
def invalidRefreshToken : Token :=
  { sampleToken with Refresh := [0xFF, 0x52] }

/-- A record whose access token is not valid UTF-8: the byte `FF`, then `A`. -/
def invalidAccessToken : Token :=
  { sampleToken with Access := [0xFF, 0x41] }

/-- A record of another client whose access token is U+FFFD followed by `A`, which is valid
UTF-8, and whose refresh token is `R1`. -/
def replacementAccessToken : Token :=
  { sampleToken with ClientID := "222222", Access := [0xEF, 0xBF, 0xBD, 0x41],
                     Refresh := "R1" }

/-- The encoding of `sampleToken`. -/
def sampleTokenJSON : Bytes :=
  "\x7b\"ClientID\":\"111111\",\"UserID\":\"u1\",\"Access\":\"A\",\"Refresh\":\"R\"\x7d"

/-- The encoding of `sampleCodeToken`. -/
def sampleCodeTokenJSON : Bytes :=
  "\x7b\"ClientID\":\"111111\",\"UserID\":\"u1\",\"Code\":\"C\"\x7d"

/-- The encoding of `longLivedToken`. -/
def longLivedTokenJSON : Bytes :=
  "\x7b\"ClientID\":\"111111\",\"UserID\":\"u1\",\"Access\":\"A\",\"Refresh\":\"R\",\"AccessExpiresIn\":20000000000000000\x7d"

/-- The encoding of `invalidRefreshToken`: the byte `FF` is written as the escape of
U+FFFD. -/
def invalidRefreshTokenJSON : Bytes :=
  "\x7b\"ClientID\":\"111111\",\"UserID\":\"u1\",\"Access\":\"A\",\"Refresh\":\"\\ufffdR\"\x7d"

/-- The encoding of `invalidAccessToken`: the byte `FF` is written as the escape of
U+FFFD. -/
def invalidAccessTokenJSON : Bytes :=
  "\x7b\"ClientID\":\"111111\",\"UserID\":\"u1\",\"Access\":\"\\ufffdA\",\"Refresh\":\"R\"\x7d"

/-- The encoding of `replacementAccessToken`. -/
def replacementAccessTokenJSON : Bytes :=
  "\x7b\"ClientID\":\"222222\",\"UserID\":\"u1\",\"Access\":\"\\ufffdA\",\"Refresh\":\"R1\"\x7d"

set_option maxRecDepth 1000000 in
/-- An encoder that knows the six sample records, and refuses every other record. -/
def sampleJSON : JSON where
  Marshal t :=
    if t = sampleToken then .ok sampleTokenJSON
    else if t = sampleCodeToken then .ok sampleCodeTokenJSON
    else if t = longLivedToken then .ok longLivedTokenJSON
    else if t = invalidRefreshToken then .ok invalidRefreshTokenJSON
    else if t = invalidAccessToken then .ok invalidAccessTokenJSON
    else if t = replacementAccessToken then .ok replacementAccessTokenJSON
    else .error (.other "json: unsupported value")
  Unmarshal jv :=
    if jv = sampleTokenJSON then .ok sampleToken
    else if jv = sampleCodeTokenJSON then .ok sampleCodeToken
    else if jv = longLivedTokenJSON then .ok longLivedToken
    else if jv = invalidRefreshTokenJSON then .ok invalidRefreshToken.readBack
    else if jv = invalidAccessTokenJSON then .ok invalidAccessToken.readBack
    else if jv = replacementAccessTokenJSON then .ok replacementAccessToken
    else .error (.other "json: syntax error")
  roundtrip := by
    intro t jv h
    dsimp only at h ⊢
    split_ifs at h with h1 h2 h3 h4 h5 h6
    · cases h
      rw [if_pos rfl, h1]
      exact congrArg _ (by decide)
    · cases h
      rw [if_neg (by decide), if_pos rfl, h2]
      exact congrArg _ (by decide)
    · cases h
      rw [if_neg (by decide), if_neg (by decide), if_pos rfl, h3]
      exact congrArg _ (by decide)
    · cases h
      rw [if_neg (by decide), if_neg (by decide), if_neg (by decide), if_pos rfl, h4]
    · cases h
      rw [if_neg (by decide), if_neg (by decide), if_neg (by decide), if_neg (by decide),
        if_pos rfl, h5]
    · cases h
      rw [if_neg (by decide), if_neg (by decide), if_neg (by decide), if_neg (by decide),
        if_neg (by decide), if_pos rfl, h6]
      exact congrArg _ (by decide)
  object := by
    intro t jv h
    dsimp only at h
    split_ifs at h with h1 h2 h3 h4 h5 h6
    · cases h; decide
    · cases h; decide
    · cases h; decide
    · cases h; decide
    · cases h; decide
    · cases h; decide

/-- A request of the token endpoint with client id and secret in the form. -/
def sampleForm : RequestContext :=
  ⟨fun key => if key = "client_id" then "111111"
    else if key = "client_secret" then "11111111" else ""⟩

/-- A request with a client id and no client secret. -/
def sampleFormNoSecret : RequestContext :=
  ⟨fun key => if key = "client_id" then "111111" else ""⟩

/-- A request without form values. -/
def sampleFormEmpty : RequestContext := ⟨fun _ => ""⟩

/-- A request on a new session: nothing in the store, no response header yet. -/
def freshSession : HandlerState :=
  { Form := none, parsedForm := [("client_id", ["222222"]), ("response_type", ["code"])],
    store := [], saved := [], header := [], statusCode := 200 }

/-- The same request after the login of the user `test`. -/
def loggedInSession : HandlerState :=
  { freshSession with store := [("LoggedInUserID", .str "test")],
                      saved := [("LoggedInUserID", .str "test")] }

/-- The store of the samples, with key namespace `oauth2:`. -/
def sampleStore : RedisTokenStore := ⟨"oauth2:"⟩

end OAuth2

/-! # Theorems -/

namespace OAuth2

/-! ## PKCE validation -/

theorem TrimRight_idem (s cutset : String) :
    TrimRight (TrimRight s cutset) cutset = TrimRight s cutset := by
  simp [TrimRight, List.rdropWhile_idempotent]

/-- C1. With method `S256`, `Validate` accepts the URL-safe base64 encoding of the SHA-256
digest of the verifier, with its `=` padding and without it; and it accepts a challenge
exactly when the challenge without its trailing `=` characters is that encoding without
its trailing `=` characters. -/
theorem Validate_S256_iff (cc ver : String) :
    Validate CodeChallengeS256 (base64.EncodeToString (sha256.Sum256 (bytesOf ver))) ver = true ∧
    Validate CodeChallengeS256
      (TrimRight (base64.EncodeToString (sha256.Sum256 (bytesOf ver))) "=") ver = true ∧
    (Validate CodeChallengeS256 cc ver = true ↔
      TrimRight cc "=" = TrimRight (base64.EncodeToString (sha256.Sum256 (bytesOf ver))) "=") := by
  have h : CodeChallengeS256 ≠ CodeChallengePlain := by decide
  refine ⟨?_, ?_, ?_⟩
  · simp [Validate, h]
  · simp [Validate, h, TrimRight_idem]
  · simp only [Validate, h, if_false, if_true, beq_iff_eq]
    exact eq_comm

set_option maxRecDepth 100000 in
/-- The pair of `server_test.go` (`s256Challenge`, `s256ChallengeHash`): the challenge is
accepted with and without its padding, and refused for another verifier. -/
theorem Validate_s256test :
    Validate "S256" "W6YWc_4yHwYN-cGDgGmOMHF3l7KDy7VcRjf7q2FVF-o=" "s256test" = true ∧
    Validate "S256" "W6YWc_4yHwYN-cGDgGmOMHF3l7KDy7VcRjf7q2FVF-o" "s256test" = true ∧
    Validate "S256" "W6YWc_4yHwYN-cGDgGmOMHF3l7KDy7VcRjf7q2FVF-o=" "s256tesu" = false := by
  decide

/-- C2. For a method other than `plain` and `S256`, `Validate` returns false, whatever the
challenge and the verifier are (`Validate` is a total function: it returns on every input). -/
theorem Validate_unknown_method (ccm : CodeChallengeMethod) (cc ver : String)
    (hp : ccm ≠ CodeChallengePlain) (hs : ccm ≠ CodeChallengeS256) :
    Validate ccm cc ver = false := by
  simp [Validate, hp, hs]

/-- The empty method with two empty strings, and the method `s256` with two equal
strings. -/
theorem Validate_unknown_method_witness :
    ("" : CodeChallengeMethod) ≠ CodeChallengePlain ∧
    ("" : CodeChallengeMethod) ≠ CodeChallengeS256 ∧
    Validate "" "" "" = false ∧ Validate "s256" "abc" "abc" = false :=
  ⟨by decide, by decide, Validate_unknown_method "" "" "" (by decide) (by decide),
   Validate_unknown_method "s256" "abc" "abc" (by decide) (by decide)⟩

/-! ## Basic identifiers -/

theorem hexDigit_ne_brace : ∀ n, n < 16 →
    String.utf8EncodeChar (uuid.hexDigits.getD n '0') ≠ [] ∧
    (String.utf8EncodeChar (uuid.hexDigits.getD n '0')).head? ≠ some 123 := by
  decide

theorem newBasicID_data (rnd : Nat) :
    ∃ rest, newBasicID rnd =
      String.utf8EncodeChar (uuid.hexDigits.getD ((rnd >>> 120) % 256 / 16 % 16) '0') ++ rest := by
  have hr : List.range 16 = [0, 1, 2, 3, 4, 5, 6, 7, 8, 9, 10, 11, 12, 13, 14, 15] := by decide
  simp [newBasicID, Bytes.ofString, uuid.String, uuid.NewRandom, beBytes, hr, uuid.hexByte]

theorem newBasicID_ne_empty (rnd : Nat) : newBasicID rnd ≠ "" := by
  obtain ⟨rest, h⟩ := newBasicID_data rnd
  have hd := (hexDigit_ne_brace _ (Nat.mod_lt ((rnd >>> 120) % 256 / 16) (by norm_num))).1
  rw [h]
  exact fun h0 => hd (List.append_eq_nil.mp h0).1

theorem newBasicID_head (rnd : Nat) : (newBasicID rnd).head? ≠ some 123 := by
  obtain ⟨rest, h⟩ := newBasicID_data rnd
  obtain ⟨hd, hne⟩ := hexDigit_ne_brace _ (Nat.mod_lt ((rnd >>> 120) % 256 / 16) (by norm_num))
  rw [h, List.head?_append_of_ne_nil _ hd]
  exact hne

namespace RedisTokenStore

theorem wrapperKey_inj (s : RedisTokenStore) {a b : Bytes} :
    s.wrapperKey a = s.wrapperKey b ↔ a = b := by
  simp [wrapperKey]

theorem Create_ok {J : JSON} {s : RedisTokenStore} {db db1 : Redis} {ct : Time} {rnd : Nat}
    {info : Token} (h : s.Create J db ct rnd info = (none, db1)) :
    ∃ jv, J.Marshal info = .ok jv ∧ db1 = Pipeliner.Exec db (s.createPipe ct rnd info jv) := by
  unfold Create at h
  split at h
  · simp at h
  · rename_i jv hjv
    exact ⟨jv, hjv, by simpa using h.symm⟩

/-- The three entries that `Create` writes for a record without code and with refresh. -/
theorem Create_entries {J : JSON} {s : RedisTokenStore} {db db1 : Redis} {ct : Time} {rnd : Nat}
    {info : Token} (hcode : info.Code = "") (hR : info.Refresh ≠ "")
    (hbA : newBasicID rnd ≠ info.Access) (hbR : newBasicID rnd ≠ info.Refresh)
    (h : s.Create J db ct rnd info = (none, db1)) :
    ∃ jv, J.Marshal info = .ok jv ∧
      (∃ x, db1 (s.wrapperKey info.Access) = some ⟨newBasicID rnd, x⟩) ∧
      (∃ x, db1 (s.wrapperKey info.Refresh) = some ⟨newBasicID rnd, x⟩) ∧
      (∃ x, db1 (s.wrapperKey (newBasicID rnd)) = some ⟨jv, x⟩) := by
  obtain ⟨jv, hjv, rfl⟩ := Create_ok h
  refine ⟨jv, hjv, ?_, ?_, ?_⟩
  · simp [createPipe, hcode, hR, Pipeliner.Exec, Pipeliner.Set, Function.update_apply,
      wrapperKey_inj, Ne.symm hbA]
  · by_cases hAR : info.Refresh = info.Access
    · have hA : info.Access ≠ "" := hAR ▸ hR
      simp [createPipe, hcode, hA, Pipeliner.Exec, Pipeliner.Set, Function.update_apply,
        wrapperKey_inj, Ne.symm hbA, hAR]
    · simp [createPipe, hcode, hR, Pipeliner.Exec, Pipeliner.Set, Function.update_apply,
        wrapperKey_inj, Ne.symm hbR, hAR]
  · simp [createPipe, hcode, hR, Pipeliner.Exec, Pipeliner.Set, Function.update_apply]

/-- A pointer key that holds a basic identifier whose key holds an encoded record resolves
to that record. -/
theorem lookup_pointer {J : JSON} {s : RedisTokenStore} {db : Redis} {key b jv : Bytes}
    {x y : Duration} {t : Token} (hb : b ≠ "")
    (hk : db (s.wrapperKey key) = some ⟨b, x⟩) (hrec : db (s.wrapperKey b) = some ⟨jv, y⟩)
    (hjv : J.Unmarshal jv = .ok t) :
    s.GetByAccess J db key = (some t, none) ∧ s.GetByRefresh J db key = (some t, none) := by
  simp [GetByAccess, GetByRefresh, getBasicID, parseBasicID, getToken, parseToken, clienter.Get,
    checkError, hk, hrec, hjv, hb]

/-- A key that is absent resolves to nothing, without error. -/
theorem lookup_absent {J : JSON} {s : RedisTokenStore} {db : Redis} {key : Bytes}
    (hk : db (s.wrapperKey key) = none) :
    s.GetByAccess J db key = (none, none) ∧ s.GetByRefresh J db key = (none, none) ∧
      s.GetByCode J db key = (none, none) := by
  simp [GetByAccess, GetByRefresh, GetByCode, getBasicID, parseBasicID, getToken, parseToken,
    clienter.Get, checkError, hk]

/-- C3, as amended. Round trip: for a record without code and with a refresh token, once
`Create` has returned nil (the basic identifier drawn being none of the record's two
tokens), `GetByAccess` of its access token and `GetByRefresh` of its refresh token both
return, without error, the record as `json` gives it back; that is the record itself when
its strings are valid UTF-8. -/
theorem Create_roundtrip (J : JSON) (s : RedisTokenStore) (db db1 : Redis) (ct : Time)
    (rnd : Nat) (info : Token)
    (hcode : info.Code = "") (hR : info.Refresh ≠ "")
    (hbA : newBasicID rnd ≠ info.Access) (hbR : newBasicID rnd ≠ info.Refresh)
    (hcreate : s.Create J db ct rnd info = (none, db1)) :
    s.GetByAccess J db1 info.Access = (some info.readBack, none) ∧
    s.GetByRefresh J db1 info.Refresh = (some info.readBack, none) ∧
    (info.readBack = info →
      s.GetByAccess J db1 info.Access = (some info, none) ∧
      s.GetByRefresh J db1 info.Refresh = (some info, none)) := by
  obtain ⟨jv, hjv, ⟨x, hA⟩, ⟨y, hRk⟩, ⟨z, hB⟩⟩ := Create_entries hcode hR hbA hbR hcreate
  have hu := J.roundtrip info jv hjv
  have h1 := (lookup_pointer (newBasicID_ne_empty rnd) hA hB hu).1
  have h2 := (lookup_pointer (newBasicID_ne_empty rnd) hRk hB hu).2
  refine ⟨h1, h2, fun hv => ?_⟩
  rw [hv] at h1 h2
  exact ⟨h1, h2⟩

/-- What `removeToken` does on a pointer key whose basic identifier holds a record, when
the key of the sibling token is still there after the pointer is deleted: only the pointer
is deleted. -/
theorem removeToken_keep {J : JSON} {s : RedisTokenStore} {db : Redis} {T b jv other : Bytes}
    {x y : Duration} {t : Token} {e : Entry} (isRefresh : Bool) (hb : b ≠ "") (hTb : T ≠ b)
    (hk : db (s.wrapperKey T) = some ⟨b, x⟩) (hrec : db (s.wrapperKey b) = some ⟨jv, y⟩)
    (hjv : J.Unmarshal jv = .ok t) (ho : (if isRefresh then t.Access else t.Refresh) = other)
    (hne : other ≠ T) (hsib : db (s.wrapperKey other) = some e) :
    s.removeToken J db T isRefresh = (none, Function.update db (s.wrapperKey T) none) := by
  subst ho
  have hne1 : s.wrapperKey b ≠ s.wrapperKey T := fun h => hTb (wrapperKey_inj s |>.1 h).symm
  have hne2 : s.wrapperKey (if isRefresh = true then t.Access else t.Refresh) ≠ s.wrapperKey T :=
    fun h => hne (wrapperKey_inj s |>.1 h)
  simp only [removeToken, getBasicID, parseBasicID, clienter.Get, hk, checkError, hb, if_false,
    remove, clienter.Del, getToken, parseToken, Function.update_noteq hne1, hrec, hjv,
    clienter.Exists, Function.update_noteq hne2, hsib]
  simp

/-- What `removeToken` does on a pointer key whose basic identifier holds a record, when
the key of the sibling token is not there after the pointer is deleted: the pointer and the
record are deleted. -/
theorem removeToken_drop {J : JSON} {s : RedisTokenStore} {db : Redis} {T b jv other : Bytes}
    {x y : Duration} {t : Token} (isRefresh : Bool) (hb : b ≠ "") (hTb : T ≠ b)
    (hk : db (s.wrapperKey T) = some ⟨b, x⟩) (hrec : db (s.wrapperKey b) = some ⟨jv, y⟩)
    (hjv : J.Unmarshal jv = .ok t) (ho : (if isRefresh then t.Access else t.Refresh) = other)
    (hsib : other = T ∨ db (s.wrapperKey other) = none) :
    s.removeToken J db T isRefresh =
      (none, Function.update (Function.update db (s.wrapperKey T) none) (s.wrapperKey b) none) := by
  subst ho
  have hne1 : s.wrapperKey b ≠ s.wrapperKey T := fun h => hTb (wrapperKey_inj s |>.1 h).symm
  have hx : Function.update db (s.wrapperKey T) none
      (s.wrapperKey (if isRefresh = true then t.Access else t.Refresh)) = none := by
    rcases hsib with h | h
    · rw [h]; simp
    · simp [Function.update_apply, h]
  simp only [removeToken, getBasicID, parseBasicID, clienter.Get, hk, checkError, hb, if_false,
    remove, clienter.Del, getToken, parseToken, Function.update_noteq hne1, hrec, hjv,
    clienter.Exists, hx]
  simp

/-- What `removeToken` does on a pointer key whose basic identifier has no record once
the pointer is deleted: only the pointer is deleted. -/
theorem removeToken_norecord {J : JSON} {s : RedisTokenStore} {db : Redis} {T b : Bytes}
    {x : Duration} (isRefresh : Bool) (hb : b ≠ "")
    (hk : db (s.wrapperKey T) = some ⟨b, x⟩)
    (hrec : Function.update db (s.wrapperKey T) none (s.wrapperKey b) = none) :
    s.removeToken J db T isRefresh = (none, Function.update db (s.wrapperKey T) none) := by
  simp [removeToken, getBasicID, parseBasicID, clienter.Get, hk, checkError, hb, remove,
    clienter.Del, getToken, parseToken, hrec]

/-- Two pointers to one basic identifier, removed one after the other. When the record
names, as sibling of the second pointer, one of the two pointers or a token that has no key,
both removals return nil and leave neither pointer nor the record. -/
theorem removeToken_both {J : JSON} {s : RedisTokenStore} {db : Redis} {T1 T2 b jv : Bytes}
    {x1 x2 y : Duration} {t : Token} (r1 r2 : Bool) (hb : b ≠ "") (hT1b : T1 ≠ b)
    (hT2b : T2 ≠ b) (hT : T1 ≠ T2)
    (hk1 : db (s.wrapperKey T1) = some ⟨b, x1⟩) (hk2 : db (s.wrapperKey T2) = some ⟨b, x2⟩)
    (hrec : db (s.wrapperKey b) = some ⟨jv, y⟩) (hjv : J.Unmarshal jv = .ok t)
    (ho2 : (if r2 then t.Access else t.Refresh) = T1 ∨
      (if r2 then t.Access else t.Refresh) = T2 ∨
      db (s.wrapperKey (if r2 then t.Access else t.Refresh)) = none) :
    ∃ db3 db4, s.removeToken J db T1 r1 = (none, db3) ∧
      s.removeToken J db3 T2 r2 = (none, db4) ∧
      db4 (s.wrapperKey T1) = none ∧ db4 (s.wrapperKey T2) = none ∧
      db4 (s.wrapperKey b) = none := by
  have hne12 : s.wrapperKey T2 ≠ s.wrapperKey T1 := fun h => hT ((wrapperKey_inj s).1 h).symm
  have hneb1 : s.wrapperKey b ≠ s.wrapperKey T1 := fun h => hT1b ((wrapperKey_inj s).1 h).symm
  have hneb2 : s.wrapperKey b ≠ s.wrapperKey T2 := fun h => hT2b ((wrapperKey_inj s).1 h).symm
  by_cases h1T : (if r1 then t.Access else t.Refresh) = T1
  · -- the sibling of the first removal is the first pointer itself: the record is deleted
    have h1 := removeToken_drop (J := J) r1 hb hT1b hk1 hrec hjv rfl (Or.inl h1T)
    have h2 : s.removeToken J
        (Function.update (Function.update db (s.wrapperKey T1) none) (s.wrapperKey b) none)
        T2 r2 = _ :=
      removeToken_norecord (J := J) r2 hb
        (by simpa [Function.update_apply, hne12, hneb2.symm] using hk2)
        (by simp [Function.update_apply])
    refine ⟨_, _, h1, h2, ?_, ?_, ?_⟩
    · simp [Function.update_apply, hne12.symm, hneb1.symm]
    · simp
    · simp [Function.update_apply, hneb2]
  · cases hs : db (s.wrapperKey (if r1 then t.Access else t.Refresh)) with
    | none =>
      -- the sibling of the first removal has no key: the record is deleted
      have h1 := removeToken_drop (J := J) r1 hb hT1b hk1 hrec hjv rfl (Or.inr hs)
      have h2 : s.removeToken J
          (Function.update (Function.update db (s.wrapperKey T1) none) (s.wrapperKey b) none)
          T2 r2 = _ :=
        removeToken_norecord (J := J) r2 hb
          (by simpa [Function.update_apply, hne12, hneb2.symm] using hk2)
          (by simp [Function.update_apply])
      refine ⟨_, _, h1, h2, ?_, ?_, ?_⟩
      · simp [Function.update_apply, hne12.symm, hneb1.symm]
      · simp
      · simp [Function.update_apply, hneb2]
    | some e =>
      -- the sibling of the first removal has a key: the record is kept, for the second
      have h1 := removeToken_keep (J := J) r1 hb hT1b hk1 hrec hjv rfl h1T hs
      have hsib : (if r2 then t.Access else t.Refresh) = T2 ∨
          Function.update db (s.wrapperKey T1) none
            (s.wrapperKey (if r2 then t.Access else t.Refresh)) = none := by
        rcases ho2 with h | h | h
        · right; rw [h]; simp
        · left; exact h
        · right; simp [Function.update_apply, h]
      have h2 : s.removeToken J (Function.update db (s.wrapperKey T1) none) T2 r2 = _ :=
        removeToken_drop (J := J) r2 hb hT2b ((Function.update_noteq hne12 _ _).trans hk2)
          ((Function.update_noteq hneb1 _ _).trans hrec) hjv rfl hsib
      refine ⟨_, _, h1, h2, ?_, ?_, ?_⟩
      · simp [Function.update_apply, hne12.symm, hneb1.symm]
      · simp [Function.update_apply, hneb2.symm]
      · simp

/-- C5, as amended. In a state that holds the three keys as `Create` wrote them for a
record with distinct access and refresh tokens whose refresh token is valid UTF-8,
`RemoveByAccess` of the access token returns nil and leaves a state where the access key
is gone (`GetByAccess` finds nothing), the refresh key and the basic record are as `Create`
wrote them, and `GetByRefresh` returns the record as `json` gives it back (the record itself
when its strings are valid UTF-8). -/
theorem RemoveByAccess_keeps_refresh (J : JSON) (s : RedisTokenStore) (db db1 db2 : Redis)
    (ct : Time) (rnd : Nat) (info : Token)
    (hcode : info.Code = "") (hR : info.Refresh ≠ "") (hAR : info.Access ≠ info.Refresh)
    (hvR : ValidUTF8 info.Refresh)
    (hbA : newBasicID rnd ≠ info.Access) (hbR : newBasicID rnd ≠ info.Refresh)
    (hcreate : s.Create J db ct rnd info = (none, db1))
    (hA : db2 (s.wrapperKey info.Access) = db1 (s.wrapperKey info.Access))
    (hRk : db2 (s.wrapperKey info.Refresh) = db1 (s.wrapperKey info.Refresh))
    (hB : db2 (s.wrapperKey (newBasicID rnd)) = db1 (s.wrapperKey (newBasicID rnd))) :
    ∃ db3, s.RemoveByAccess J db2 info.Access = (none, db3) ∧
      db3 (s.wrapperKey info.Access) = none ∧
      s.GetByAccess J db3 info.Access = (none, none) ∧
      db3 (s.wrapperKey info.Refresh) = db1 (s.wrapperKey info.Refresh) ∧
      (db3 (s.wrapperKey info.Refresh)).isSome = true ∧
      db3 (s.wrapperKey (newBasicID rnd)) = db1 (s.wrapperKey (newBasicID rnd)) ∧
      (db3 (s.wrapperKey (newBasicID rnd))).isSome = true ∧
      s.GetByRefresh J db3 info.Refresh = (some info.readBack, none) ∧
      (info.readBack = info → s.GetByRefresh J db3 info.Refresh = (some info, none)) := by
  obtain ⟨jv, hjv, ⟨x, hA1⟩, ⟨y, hR1⟩, ⟨z, hB1⟩⟩ := Create_entries hcode hR hbA hbR hcreate
  have hu := J.roundtrip info jv hjv
  have hA2 := hA.trans hA1
  have hR2 := hRk.trans hR1
  have hB2 := hB.trans hB1
  have hneRA : s.wrapperKey info.Refresh ≠ s.wrapperKey info.Access :=
    fun h => hAR (wrapperKey_inj s |>.1 h).symm
  have hneBA : s.wrapperKey (newBasicID rnd) ≠ s.wrapperKey info.Access :=
    fun h => hbA (wrapperKey_inj s |>.1 h)
  have hsib : (if false = true then info.readBack.Access else info.readBack.Refresh) =
      info.Refresh := by
    simpa [Token.readBack] using hvR
  have hrm : s.RemoveByAccess J db2 info.Access = _ :=
    removeToken_keep (J := J) false (newBasicID_ne_empty rnd) (Ne.symm hbA) hA2 hB2 hu hsib
      (Ne.symm hAR) hR2
  have hget : s.GetByRefresh J (Function.update db2 (s.wrapperKey info.Access) none)
      info.Refresh = (some info.readBack, none) :=
    (lookup_pointer (newBasicID_ne_empty rnd) ((Function.update_noteq hneRA _ _).trans hR2)
      ((Function.update_noteq hneBA _ _).trans hB2) hu).2
  refine ⟨_, hrm, ?_, ?_, ?_, ?_, ?_, ?_, hget, fun hv => ?_⟩
  · simp
  · exact (lookup_absent (by simp)).1
  · rw [Function.update_noteq hneRA, hRk]
  · rw [Function.update_noteq hneRA, hR2]; rfl
  · rw [Function.update_noteq hneBA, hB]
  · rw [Function.update_noteq hneBA, hB2]; rfl
  · rw [hv] at hget
    exact hget

/-- C6, as amended. In a state that holds the three keys as `Create` wrote them for a
record with distinct access and refresh tokens, `RemoveByAccess` of the access token and
then `RemoveByRefresh` of the refresh token both return nil and leave a state without the
access key, the refresh key and the basic record key, where `GetByAccess` and `GetByRefresh`
find nothing, when the access token as `json` gives it back is one of the two tokens of the
record or has no key in the store. So do `RemoveByRefresh` and then `RemoveByAccess`, when
the refresh token as `json` gives it back is one of the two tokens or has no key. Both
conditions hold for every state when the two tokens are valid UTF-8. -/
theorem Remove_both_clears (J : JSON) (s : RedisTokenStore) (db db1 db2 : Redis)
    (ct : Time) (rnd : Nat) (info : Token)
    (hcode : info.Code = "") (hR : info.Refresh ≠ "") (hAR : info.Access ≠ info.Refresh)
    (hbA : newBasicID rnd ≠ info.Access) (hbR : newBasicID rnd ≠ info.Refresh)
    (hcreate : s.Create J db ct rnd info = (none, db1))
    (hA : db2 (s.wrapperKey info.Access) = db1 (s.wrapperKey info.Access))
    (hRk : db2 (s.wrapperKey info.Refresh) = db1 (s.wrapperKey info.Refresh))
    (hB : db2 (s.wrapperKey (newBasicID rnd)) = db1 (s.wrapperKey (newBasicID rnd))) :
    ((toValidUTF8 info.Access = info.Access ∨ toValidUTF8 info.Access = info.Refresh ∨
        db2 (s.wrapperKey (toValidUTF8 info.Access)) = none) →
      ∃ db3 db4, s.RemoveByAccess J db2 info.Access = (none, db3) ∧
        s.RemoveByRefresh J db3 info.Refresh = (none, db4) ∧
        db4 (s.wrapperKey info.Access) = none ∧ db4 (s.wrapperKey info.Refresh) = none ∧
        db4 (s.wrapperKey (newBasicID rnd)) = none ∧
        s.GetByAccess J db4 info.Access = (none, none) ∧
        s.GetByRefresh J db4 info.Refresh = (none, none)) ∧
    ((toValidUTF8 info.Refresh = info.Access ∨ toValidUTF8 info.Refresh = info.Refresh ∨
        db2 (s.wrapperKey (toValidUTF8 info.Refresh)) = none) →
      ∃ db3 db4, s.RemoveByRefresh J db2 info.Refresh = (none, db3) ∧
        s.RemoveByAccess J db3 info.Access = (none, db4) ∧
        db4 (s.wrapperKey info.Access) = none ∧ db4 (s.wrapperKey info.Refresh) = none ∧
        db4 (s.wrapperKey (newBasicID rnd)) = none ∧
        s.GetByAccess J db4 info.Access = (none, none) ∧
        s.GetByRefresh J db4 info.Refresh = (none, none)) ∧
    (ValidUTF8 info.Access → ValidUTF8 info.Refresh →
      (∃ db3 db4, s.RemoveByAccess J db2 info.Access = (none, db3) ∧
        s.RemoveByRefresh J db3 info.Refresh = (none, db4) ∧
        db4 (s.wrapperKey info.Access) = none ∧ db4 (s.wrapperKey info.Refresh) = none ∧
        db4 (s.wrapperKey (newBasicID rnd)) = none ∧
        s.GetByAccess J db4 info.Access = (none, none) ∧
        s.GetByRefresh J db4 info.Refresh = (none, none)) ∧
      (∃ db3 db4, s.RemoveByRefresh J db2 info.Refresh = (none, db3) ∧
        s.RemoveByAccess J db3 info.Access = (none, db4) ∧
        db4 (s.wrapperKey info.Access) = none ∧ db4 (s.wrapperKey info.Refresh) = none ∧
        db4 (s.wrapperKey (newBasicID rnd)) = none ∧
        s.GetByAccess J db4 info.Access = (none, none) ∧
        s.GetByRefresh J db4 info.Refresh = (none, none))) := by
  obtain ⟨jv, hjv, ⟨x, hA1⟩, ⟨y, hR1⟩, ⟨z, hB1⟩⟩ := Create_entries hcode hR hbA hbR hcreate
  have hu := J.roundtrip info jv hjv
  have hA2 := hA.trans hA1
  have hR2 := hRk.trans hR1
  have hB2 := hB.trans hB1
  have first : (toValidUTF8 info.Access = info.Access ∨ toValidUTF8 info.Access = info.Refresh ∨
        db2 (s.wrapperKey (toValidUTF8 info.Access)) = none) →
      ∃ db3 db4, s.RemoveByAccess J db2 info.Access = (none, db3) ∧
        s.RemoveByRefresh J db3 info.Refresh = (none, db4) ∧
        db4 (s.wrapperKey info.Access) = none ∧ db4 (s.wrapperKey info.Refresh) = none ∧
        db4 (s.wrapperKey (newBasicID rnd)) = none ∧
        s.GetByAccess J db4 info.Access = (none, none) ∧
        s.GetByRefresh J db4 info.Refresh = (none, none) := by
    intro hbackA
    have hoA : info.readBack.Access = info.Access ∨ info.readBack.Access = info.Refresh ∨
        db2 (s.wrapperKey info.readBack.Access) = none := hbackA
    obtain ⟨db3, db4, h1, h2, g1, g2, g3⟩ :=
      removeToken_both (J := J) false true (newBasicID_ne_empty rnd) (Ne.symm hbA) (Ne.symm hbR)
        hAR hA2 hR2 hB2 hu (by simpa using hoA)
    exact ⟨db3, db4, h1, h2, g1, g2, g3, (lookup_absent g1).1, (lookup_absent g2).2.1⟩
  have second : (toValidUTF8 info.Refresh = info.Access ∨
        toValidUTF8 info.Refresh = info.Refresh ∨
        db2 (s.wrapperKey (toValidUTF8 info.Refresh)) = none) →
      ∃ db3 db4, s.RemoveByRefresh J db2 info.Refresh = (none, db3) ∧
        s.RemoveByAccess J db3 info.Access = (none, db4) ∧
        db4 (s.wrapperKey info.Access) = none ∧ db4 (s.wrapperKey info.Refresh) = none ∧
        db4 (s.wrapperKey (newBasicID rnd)) = none ∧
        s.GetByAccess J db4 info.Access = (none, none) ∧
        s.GetByRefresh J db4 info.Refresh = (none, none) := by
    intro hbackR
    have hoR : info.readBack.Refresh = info.Access ∨ info.readBack.Refresh = info.Refresh ∨
        db2 (s.wrapperKey info.readBack.Refresh) = none := hbackR
    obtain ⟨db3, db4, h1, h2, g1, g2, g3⟩ :=
      removeToken_both (J := J) true false (newBasicID_ne_empty rnd) (Ne.symm hbR) (Ne.symm hbA)
        (Ne.symm hAR) hR2 hA2 hB2 hu
        (by
          rcases hoR with h | h | h
          · exact Or.inr (Or.inl (by simpa using h))
          · exact Or.inl (by simpa using h)
          · exact Or.inr (Or.inr (by simpa using h)))
    exact ⟨db3, db4, h1, h2, g2, g1, g3, (lookup_absent g2).1, (lookup_absent g1).2.1⟩
  exact ⟨first, second, fun hvA hvR => ⟨first (Or.inl hvA), second (Or.inr (Or.inl hvR))⟩⟩

/-- C7. Single-use code: `RemoveByCode` returns nil and leaves the code key absent, so that
`GetByCode` then returns no record and no error; in particular after `Create` of a
record that carries the code. -/
theorem RemoveByCode_single_use (J : JSON) (s : RedisTokenStore) (db : Redis) (code : Bytes) :
    (s.RemoveByCode db code).1 = none ∧
    (s.RemoveByCode db code).2 (s.wrapperKey code) = none ∧
    s.GetByCode J (s.RemoveByCode db code).2 code = (none, none) ∧
    (∀ (ct : Time) (rnd : Nat) (info : Token),
      s.GetByCode J (s.RemoveByCode (s.Create J db ct rnd info).2 info.Code).2 info.Code =
        (none, none)) := by
  have key : ∀ (d : Redis) (c : Bytes), (s.RemoveByCode d c).2 (s.wrapperKey c) = none := by
    intro d c
    simp [RemoveByCode, remove, clienter.Del]
  refine ⟨?_, key db code, (lookup_absent (key db code)).2.2, ?_⟩
  · simp [RemoveByCode, remove, clienter.Del, checkError]
  · intro ct rnd info
    exact (lookup_absent (key _ _)).2.2

/-- A record that carries a code is found by `GetByCode` after `Create`, as `json` gives it
back. -/
theorem GetByCode_after_Create {J : JSON} {s : RedisTokenStore} {db : Redis} {ct : Time}
    {rnd : Nat} {info : Token} {jv : Bytes} (hcode : info.Code ≠ "")
    (hm : J.Marshal info = .ok jv) :
    s.GetByCode J (s.Create J db ct rnd info).2 info.Code = (some info.readBack, none) := by
  simp [GetByCode, getToken, parseToken, clienter.Get, checkError, Create, hm, createPipe, hcode,
    Pipeliner.Exec, Pipeliner.Set, J.roundtrip info jv hm]

/-- C10. For a record with a code, `Create` queues one command, the `SET` of the namespaced
code to the encoded record with the code lifetime; it returns nil, the code key then holds
that entry, and every other key is as before. `GetByCode` then returns the record as `json`
gives it back, which is the record itself when its strings are valid UTF-8. -/
theorem Create_code_single_key (J : JSON) (s : RedisTokenStore) (db : Redis) (ct : Time)
    (rnd : Nat) (info : Token) (jv : Bytes) (hcode : info.Code ≠ "")
    (hm : J.Marshal info = .ok jv) :
    s.createPipe ct rnd info jv = [⟨s.wrapperKey info.Code, jv, info.CodeExpiresIn⟩] ∧
    (s.Create J db ct rnd info).1 = none ∧
    (s.Create J db ct rnd info).2 (s.wrapperKey info.Code) = some ⟨jv, info.CodeExpiresIn⟩ ∧
    (∀ k, k ≠ s.wrapperKey info.Code → (s.Create J db ct rnd info).2 k = db k) ∧
    s.GetByCode J (s.Create J db ct rnd info).2 info.Code = (some info.readBack, none) ∧
    (info.readBack = info →
      s.GetByCode J (s.Create J db ct rnd info).2 info.Code = (some info, none)) := by
  refine ⟨by simp [createPipe, hcode], by simp [Create, hm], ?_, ?_,
    GetByCode_after_Create hcode hm,
    fun hv => (GetByCode_after_Create hcode hm).trans (by rw [hv])⟩
  · simp [Create, hm, createPipe, hcode, Pipeliner.Exec, Pipeliner.Set]
  · intro k hk
    simp [Create, hm, createPipe, hcode, Pipeliner.Exec, Pipeliner.Set, Function.update_apply, hk]

end RedisTokenStore

/-! ## Time-to-live of the keys that `Create` writes -/

set_option maxRecDepth 1000000 in
/-- C8, at a failing input. The record `longLivedToken` has an access lifetime of 20000000
seconds, and `Create` runs one nanosecond after the refresh token was created, so the
refresh token has 20000000 seconds less one nanosecond left. Both durations are the same
number of seconds as `float64`, so `aexp.Seconds() > rexp.Seconds()` is false: the access
pointer is written with the whole access lifetime, which is not the minimum of the two and
is more than the expiration of the refresh pointer. -/
theorem Create_access_pointer_outlives_refresh :
    longLivedToken.Code = "" ∧ longLivedToken.Refresh ≠ "" ∧
    (sampleStore.Create sampleJSON emptyRedis 1001 7 longLivedToken).1 = none ∧
    Float64.lt (Seconds 19999999999999999) (Seconds 20000000000000000) = false ∧
    (sampleStore.Create sampleJSON emptyRedis 1001 7 longLivedToken).2 "oauth2:A" =
      some ⟨"00000000-0000-4000-8000-000000000007", 20000000000000000⟩ ∧
    (sampleStore.Create sampleJSON emptyRedis 1001 7 longLivedToken).2 "oauth2:R" =
      some ⟨"00000000-0000-4000-8000-000000000007", 19999999999999999⟩ ∧
    min longLivedToken.AccessExpiresIn
      (Time.Sub (Time.Add longLivedToken.RefreshCreateAt longLivedToken.RefreshExpiresIn) 1001) =
      19999999999999999 := by
  decide

set_option maxRecDepth 1000000 in
/-- C9, at a failing input (that of C8). The commands that `Create` queues for
`longLivedToken`, one nanosecond after the refresh token was created: the basic record gets
the expiration of the refresh pointer, which is less than that of the access pointer. -/
theorem Create_basic_record_expires_first :
    sampleStore.createPipe 1001 7 longLivedToken longLivedTokenJSON =
      [⟨"oauth2:R", "00000000-0000-4000-8000-000000000007", 19999999999999999⟩,
       ⟨"oauth2:A", "00000000-0000-4000-8000-000000000007", 20000000000000000⟩,
       ⟨"oauth2:00000000-0000-4000-8000-000000000007", longLivedTokenJSON,
        19999999999999999⟩] := by
  decide

/-! ## The theorems at the sample data -/

set_option maxRecDepth 1000000 in
/-- C3 at `sampleToken`, created in the empty store: its strings are valid UTF-8. -/
theorem Create_roundtrip_witness :
    newBasicID 7 ≠ sampleToken.Access ∧ newBasicID 7 ≠ sampleToken.Refresh ∧
    sampleToken.readBack = sampleToken ∧
    sampleStore.GetByAccess sampleJSON
      (sampleStore.Create sampleJSON emptyRedis 1001 7 sampleToken).2 "A" =
      (some sampleToken, none) ∧
    sampleStore.GetByRefresh sampleJSON
      (sampleStore.Create sampleJSON emptyRedis 1001 7 sampleToken).2 "R" =
      (some sampleToken, none) :=
  ⟨by decide, by decide, by decide,
   (RedisTokenStore.Create_roundtrip sampleJSON sampleStore emptyRedis _ 1001 7 sampleToken
    (by decide) (by decide) (by decide) (by decide) (Prod.ext (by decide) rfl)).2.2
    (by decide)⟩

set_option maxRecDepth 1000000 in
/-- C3 as claimed fails. The record `invalidRefreshToken` has no code, non-empty and
distinct tokens and positive lifetimes; its refresh token is the byte `FF` followed by `R`.
After `Create` in the empty store, `GetByRefresh` of that refresh token returns a record
whose refresh token is U+FFFD followed by `R`: not the record that was created. -/
theorem Create_roundtrip_invalid_utf8 :
    invalidRefreshToken.Code = "" ∧ invalidRefreshToken.Access ≠ "" ∧
    invalidRefreshToken.Refresh ≠ "" ∧
    invalidRefreshToken.Access ≠ invalidRefreshToken.Refresh ∧
    0 < invalidRefreshToken.AccessExpiresIn ∧ 0 < invalidRefreshToken.RefreshExpiresIn ∧
    (sampleStore.Create sampleJSON emptyRedis 1001 7 invalidRefreshToken).1 = none ∧
    sampleStore.GetByRefresh sampleJSON
      (sampleStore.Create sampleJSON emptyRedis 1001 7 invalidRefreshToken).2 [0xFF, 0x52] =
      (some { invalidRefreshToken with Refresh := [0xEF, 0xBF, 0xBD, 0x52] }, none) ∧
    sampleStore.GetByRefresh sampleJSON
      (sampleStore.Create sampleJSON emptyRedis 1001 7 invalidRefreshToken).2 [0xFF, 0x52] ≠
      (some invalidRefreshToken, none) := by
  decide

/-- C5 at `sampleToken`, created in the empty store. -/
theorem RemoveByAccess_keeps_refresh_witness :
    ValidUTF8 sampleToken.Refresh ∧
    ∃ db3, sampleStore.RemoveByAccess sampleJSON
        (sampleStore.Create sampleJSON emptyRedis 1001 7 sampleToken).2 "A" = (none, db3) ∧
      db3 "oauth2:A" = none ∧
      sampleStore.GetByAccess sampleJSON db3 "A" = (none, none) ∧
      sampleStore.GetByRefresh sampleJSON db3 "R" = (some sampleToken, none) := by
  obtain ⟨db3, h1, h2, h3, _, _, _, _, _, h9⟩ :=
    RedisTokenStore.RemoveByAccess_keeps_refresh sampleJSON sampleStore emptyRedis _ _ 1001 7
      sampleToken (by decide) (by decide) (by decide) (by decide) (by decide) (by decide)
      (Prod.ext (by decide) rfl) rfl rfl rfl
  exact ⟨by decide, db3, h1, h2, h3, h9 (by decide)⟩

set_option maxRecDepth 1000000 in
/-- C5 as claimed fails. After `Create` of `invalidRefreshToken` in the empty store, whose
refresh token is the byte `FF` followed by `R`, `RemoveByAccess` of its access token
returns nil, but the basic record is deleted with the access key: `removeToken` looks for
the key of the refresh token of the decoded record, U+FFFD followed by `R`, which does not
exist. The refresh key still holds the basic identifier, and `GetByRefresh` finds
nothing. -/
theorem RemoveByAccess_invalid_refresh :
    invalidRefreshToken.Code = "" ∧ invalidRefreshToken.Refresh ≠ "" ∧
    invalidRefreshToken.Access ≠ invalidRefreshToken.Refresh ∧
    (sampleStore.Create sampleJSON emptyRedis 1001 7 invalidRefreshToken).1 = none ∧
    (sampleStore.RemoveByAccess sampleJSON
      (sampleStore.Create sampleJSON emptyRedis 1001 7 invalidRefreshToken).2 "A").1 = none ∧
    (sampleStore.RemoveByAccess sampleJSON
      (sampleStore.Create sampleJSON emptyRedis 1001 7 invalidRefreshToken).2 "A").2
      (sampleStore.wrapperKey "00000000-0000-4000-8000-000000000007") = none ∧
    (sampleStore.RemoveByAccess sampleJSON
      (sampleStore.Create sampleJSON emptyRedis 1001 7 invalidRefreshToken).2 "A").2
      (sampleStore.wrapperKey [0xFF, 0x52]) =
      some ⟨"00000000-0000-4000-8000-000000000007", 604799999999999⟩ ∧
    sampleStore.GetByRefresh sampleJSON
      (sampleStore.RemoveByAccess sampleJSON
        (sampleStore.Create sampleJSON emptyRedis 1001 7 invalidRefreshToken).2 "A").2
      [0xFF, 0x52] = (none, none) := by
  decide

set_option maxRecDepth 1000000 in
/-- C6 as amended, at `sampleToken`, whose tokens are valid UTF-8, and at
`invalidRefreshToken`, each created in the empty store. -/
theorem Remove_both_clears_witness :
    ((∃ db3 db4, sampleStore.RemoveByAccess sampleJSON
        (sampleStore.Create sampleJSON emptyRedis 1001 7 sampleToken).2 "A" = (none, db3) ∧
      sampleStore.RemoveByRefresh sampleJSON db3 "R" = (none, db4) ∧
      db4 "oauth2:A" = none ∧ db4 "oauth2:R" = none ∧
      db4 "oauth2:00000000-0000-4000-8000-000000000007" = none) ∧
    (∃ db3 db4, sampleStore.RemoveByRefresh sampleJSON
        (sampleStore.Create sampleJSON emptyRedis 1001 7 sampleToken).2 "R" = (none, db3) ∧
      sampleStore.RemoveByAccess sampleJSON db3 "A" = (none, db4) ∧
      db4 "oauth2:A" = none ∧ db4 "oauth2:R" = none ∧
      db4 "oauth2:00000000-0000-4000-8000-000000000007" = none)) ∧
    ((∃ db3 db4, sampleStore.RemoveByAccess sampleJSON
        (sampleStore.Create sampleJSON emptyRedis 1001 7 invalidRefreshToken).2 "A" =
        (none, db3) ∧
      sampleStore.RemoveByRefresh sampleJSON db3 [0xFF, 0x52] = (none, db4) ∧
      db4 "oauth2:A" = none ∧ db4 (sampleStore.wrapperKey [0xFF, 0x52]) = none ∧
      db4 "oauth2:00000000-0000-4000-8000-000000000007" = none) ∧
    (∃ db3 db4, sampleStore.RemoveByRefresh sampleJSON
        (sampleStore.Create sampleJSON emptyRedis 1001 7 invalidRefreshToken).2 [0xFF, 0x52] =
        (none, db3) ∧
      sampleStore.RemoveByAccess sampleJSON db3 "A" = (none, db4) ∧
      db4 "oauth2:A" = none ∧ db4 (sampleStore.wrapperKey [0xFF, 0x52]) = none ∧
      db4 "oauth2:00000000-0000-4000-8000-000000000007" = none)) := by
  obtain ⟨⟨a3, a4, h1, h2, h3, h4, h5, _, _⟩, ⟨b3, b4, g1, g2, g3, g4, g5, _, _⟩⟩ :=
    (RedisTokenStore.Remove_both_clears sampleJSON sampleStore emptyRedis _ _ 1001 7
      sampleToken (by decide) (by decide) (by decide) (by decide) (by decide)
      (Prod.ext (by decide) rfl) rfl rfl rfl).2.2 (by decide) (by decide)
  have hinv := RedisTokenStore.Remove_both_clears sampleJSON sampleStore emptyRedis _ _ 1001 7
      invalidRefreshToken (by decide) (by decide) (by decide) (by decide) (by decide)
      (Prod.ext (by decide) rfl) rfl rfl rfl
  obtain ⟨c3, c4, k1, k2, k3, k4, k5, _, _⟩ := hinv.1 (Or.inl (by decide))
  obtain ⟨d3, d4, m1, m2, m3, m4, m5, _, _⟩ := hinv.2.1 (Or.inr (Or.inr (by decide)))
  exact ⟨⟨⟨a3, a4, h1, h2, h3, h4, h5⟩, ⟨b3, b4, g1, g2, g3, g4, g5⟩⟩,
    ⟨⟨c3, c4, k1, k2, k3, k4, k5⟩, ⟨d3, d4, m1, m2, m3, m4, m5⟩⟩⟩

set_option maxRecDepth 1000000 in
/-- C6 as claimed fails. The store holds the record `replacementAccessToken`, whose access
token is U+FFFD followed by `A`. `Create` of `invalidAccessToken`, whose access token is the
byte `FF` followed by `A` and whose refresh token is `R`, returns nil and writes its three
keys. `RemoveByAccess` of that access token and then `RemoveByRefresh` of `R` both return
nil, and the two pointers are gone, but the basic record is still there: the second removal
looks for the key of the access token of the decoded record, U+FFFD followed by `A`, which
is the access key of the other record. -/
theorem Remove_both_keeps_record :
    invalidAccessToken.Code = "" ∧ invalidAccessToken.Refresh ≠ "" ∧
    invalidAccessToken.Access ≠ invalidAccessToken.Refresh ∧
    newBasicID 7 ≠ invalidAccessToken.Access ∧ newBasicID 7 ≠ invalidAccessToken.Refresh ∧
    (sampleStore.Create sampleJSON emptyRedis 1000 8 replacementAccessToken).1 = none ∧
    (sampleStore.Create sampleJSON emptyRedis 1000 8 replacementAccessToken).2
      (sampleStore.wrapperKey (newBasicID 7)) = none ∧
    (sampleStore.Create sampleJSON
      (sampleStore.Create sampleJSON emptyRedis 1000 8 replacementAccessToken).2
      1001 7 invalidAccessToken).1 = none ∧
    (sampleStore.RemoveByAccess sampleJSON
      (sampleStore.Create sampleJSON
        (sampleStore.Create sampleJSON emptyRedis 1000 8 replacementAccessToken).2
        1001 7 invalidAccessToken).2 [0xFF, 0x41]).1 = none ∧
    (sampleStore.RemoveByRefresh sampleJSON
      (sampleStore.RemoveByAccess sampleJSON
        (sampleStore.Create sampleJSON
          (sampleStore.Create sampleJSON emptyRedis 1000 8 replacementAccessToken).2
          1001 7 invalidAccessToken).2 [0xFF, 0x41]).2 "R").1 = none ∧
    (sampleStore.RemoveByRefresh sampleJSON
      (sampleStore.RemoveByAccess sampleJSON
        (sampleStore.Create sampleJSON
          (sampleStore.Create sampleJSON emptyRedis 1000 8 replacementAccessToken).2
          1001 7 invalidAccessToken).2 [0xFF, 0x41]).2 "R").2
      (sampleStore.wrapperKey [0xFF, 0x41]) = none ∧
    (sampleStore.RemoveByRefresh sampleJSON
      (sampleStore.RemoveByAccess sampleJSON
        (sampleStore.Create sampleJSON
          (sampleStore.Create sampleJSON emptyRedis 1000 8 replacementAccessToken).2
          1001 7 invalidAccessToken).2 [0xFF, 0x41]).2 "R").2 "oauth2:R" = none ∧
    (sampleStore.RemoveByRefresh sampleJSON
      (sampleStore.RemoveByAccess sampleJSON
        (sampleStore.Create sampleJSON
          (sampleStore.Create sampleJSON emptyRedis 1000 8 replacementAccessToken).2
          1001 7 invalidAccessToken).2 [0xFF, 0x41]).2 "R").2
      "oauth2:00000000-0000-4000-8000-000000000007" =
      some ⟨invalidAccessTokenJSON, 604799999999999⟩ := by
  decide

/-- C10 at `sampleCodeToken`, which carries a code, an access and a refresh token. -/
theorem Create_code_single_key_witness :
    sampleCodeToken.Code ≠ "" ∧ sampleCodeToken.Access ≠ "" ∧ sampleCodeToken.Refresh ≠ "" ∧
    sampleStore.createPipe 1001 7 sampleCodeToken sampleCodeTokenJSON =
      [⟨"oauth2:C", sampleCodeTokenJSON, 600000000000⟩] ∧
    (∀ k : Bytes, k ≠ "oauth2:C" →
      (sampleStore.Create sampleJSON emptyRedis 1001 7 sampleCodeToken).2 k = none) :=
  have h := RedisTokenStore.Create_code_single_key sampleJSON sampleStore emptyRedis 1001 7
    sampleCodeToken sampleCodeTokenJSON (by decide) (by rfl)
  ⟨by decide, by decide, by decide, h.1, h.2.2.2.1⟩


/-! ## Invariant I1 -/

namespace RedisTokenStore

/-- The encoding of a record is not a basic identifier. -/
theorem Marshal_not_basicID {J : JSON} {t : Token} {jv : Bytes} (h : J.Marshal t = .ok jv) :
    ¬ IsBasicID jv := by
  rintro ⟨rnd, rfl⟩
  exact newBasicID_head rnd (J.object t _ h)

/-- A linked state has no dangling pointer. -/
theorem Linked_noDangling {J : JSON} {s : RedisTokenStore} {db : Redis} (h : Linked J s db) :
    NoDangling J s db := by
  intro k e hk hb
  obtain ⟨e1, t, h1, h2, _⟩ := h k e hk hb
  exact ⟨t, by simp [getToken, parseToken, clienter.Get, checkError, h1, h2]⟩

/-- Deleting a key that is not the record key of a basic identifier in use keeps the state
linked. -/
theorem Linked_del {J : JSON} {s : RedisTokenStore} {db : Redis} (h : Linked J s db)
    (key : Bytes)
    (hkey : ∀ k e, k ≠ key → db k = some e → IsBasicID e.val → s.wrapperKey e.val ≠ key) :
    Linked J s (Function.update db key none) := by
  intro k e hk hb
  have hne : k ≠ key := by
    rintro rfl
    simp at hk
  rw [Function.update_noteq hne] at hk
  obtain ⟨e1, t, h1, h2, h3⟩ := h k e hk hb
  exact ⟨e1, t, by rw [Function.update_noteq (hkey k e hne hk hb)]; exact h1, h2, h3⟩

/-- Writing an encoded record under a key that is not the record key of a basic identifier
in use keeps the state linked. -/
theorem Linked_setRecord {J : JSON} {s : RedisTokenStore} {db : Redis} (h : Linked J s db)
    (key jv : Bytes) (x : Duration) (hjv : ¬ IsBasicID jv)
    (hkey : ∀ k e, db k = some e → IsBasicID e.val → s.wrapperKey e.val ≠ key) :
    Linked J s (Function.update db key (some ⟨jv, x⟩)) := by
  intro k e hk hb
  by_cases hne : k = key
  · subst hne
    simp at hk
    subst hk
    exact absurd hb hjv
  · rw [Function.update_noteq hne] at hk
    obtain ⟨e1, t, h1, h2, h3⟩ := h k e hk hb
    exact ⟨e1, t, by rw [Function.update_noteq (hkey k e hk hb)]; exact h1, h2, h3⟩

/-- A key that is not the key of a basic identifier in use. -/
theorem not_target {s : RedisTokenStore} {db : Redis} {T : Bytes} (h : ¬ InUse db T) :
    ∀ k e, db k = some e → IsBasicID e.val → s.wrapperKey e.val ≠ s.wrapperKey T := by
  intro k e hk hb heq
  have := (wrapperKey_inj s).1 heq
  exact h ⟨this ▸ hb, k, e, hk, this⟩

/-- `Create` keeps the state linked. -/
theorem Linked_create {J : JSON} {s : RedisTokenStore} {db : Redis} (h : Linked J s db)
    (ct : Time) (rnd : Nat) (info : Token)
    (hfresh : db (s.wrapperKey (newBasicID rnd)) = none)
    (hbA : newBasicID rnd ≠ info.Access) (hbR : newBasicID rnd ≠ info.Refresh)
    (hC : ¬ InUse db info.Code) (hA : ¬ InUse db info.Access) (hR : ¬ InUse db info.Refresh)
    (hvA : ValidUTF8 info.Access) (hvR : ValidUTF8 info.Refresh) :
    Linked J s (s.Create J db ct rnd info).2 := by
  unfold Create
  split
  · exact h
  · rename_i jv hm
    have hjv := Marshal_not_basicID hm
    have hu := J.roundtrip info jv hm
    have hbackA : info.readBack.Access = info.Access := hvA
    have hbackR : info.readBack.Refresh = info.Refresh := hvR
    by_cases hcode : info.Code = ""
    · -- the pointers and the basic record
      have hneA : s.wrapperKey info.Access ≠ s.wrapperKey (newBasicID rnd) :=
        fun h => hbA ((wrapperKey_inj s).1 h).symm
      have hneR : s.wrapperKey info.Refresh ≠ s.wrapperKey (newBasicID rnd) :=
        fun h => hbR ((wrapperKey_inj s).1 h).symm
      have hB : ∀ k e, db k = some e → IsBasicID e.val →
          s.wrapperKey e.val ≠ s.wrapperKey (newBasicID rnd) := by
        intro k e hk hb heq
        obtain ⟨e1, t, h1, _, _⟩ := h k e hk hb
        rw [heq, hfresh] at h1
        exact absurd h1 (by simp)
      intro k e hk hb
      by_cases hR0 : info.Refresh = ""
      · simp only [createPipe, hcode, hR0, ne_eq, not_true_eq_false, if_false, Pipeliner.Exec,
          List.foldl, Pipeliner.Set] at hk ⊢
        by_cases k1 : k = s.wrapperKey (newBasicID rnd)
        · subst k1
          simp at hk
          subst hk
          exact absurd hb hjv
        · rw [Function.update_noteq k1] at hk
          by_cases k2 : k = s.wrapperKey info.Access
          · subst k2
            simp at hk
            subst hk
            exact ⟨_, info.readBack, Function.update_same _ _ _, hu, Or.inl (by rw [hbackA])⟩
          · rw [Function.update_noteq k2] at hk
            obtain ⟨e1, t, h1, h2, h3⟩ := h k e hk hb
            refine ⟨e1, t, ?_, h2, h3⟩
            rw [Function.update_noteq (hB k e hk hb), Function.update_noteq (not_target hA k e hk hb)]
            exact h1
      · simp only [createPipe, hcode, hR0, ne_eq, not_true_eq_false, not_false_eq_true, if_false,
          if_true, Pipeliner.Exec, List.foldl, Pipeliner.Set] at hk ⊢
        by_cases k1 : k = s.wrapperKey (newBasicID rnd)
        · subst k1
          simp at hk
          subst hk
          exact absurd hb hjv
        · rw [Function.update_noteq k1] at hk
          by_cases k2 : k = s.wrapperKey info.Access
          · subst k2
            simp at hk
            subst hk
            exact ⟨_, info.readBack, Function.update_same _ _ _, hu, Or.inl (by rw [hbackA])⟩
          · rw [Function.update_noteq k2] at hk
            by_cases k3 : k = s.wrapperKey info.Refresh
            · subst k3
              simp at hk
              subst hk
              exact ⟨_, info.readBack, Function.update_same _ _ _, hu, Or.inr (by rw [hbackR])⟩
            · rw [Function.update_noteq k3] at hk
              obtain ⟨e1, t, h1, h2, h3⟩ := h k e hk hb
              refine ⟨e1, t, ?_, h2, h3⟩
              rw [Function.update_noteq (hB k e hk hb),
                Function.update_noteq (not_target hA k e hk hb),
                Function.update_noteq (not_target hR k e hk hb)]
              exact h1
    · -- the code record
      simp only [createPipe, hcode, ne_eq, not_false_eq_true, if_true, Pipeliner.Exec,
        List.foldl, Pipeliner.Set]
      exact Linked_setRecord h _ jv _ hjv (not_target hC)

/-- The state after `removeToken`: the state before, or without the pointer key, or without
the pointer key and the record key, the last only when the pointer resolved to a record
whose sibling token had no key once the pointer was deleted. -/
theorem removeToken_cases (J : JSON) (s : RedisTokenStore) (db : Redis) (T : Bytes)
    (isRefresh : Bool) :
    (s.removeToken J db T isRefresh).2 = db ∨
    (s.removeToken J db T isRefresh).2 = Function.update db (s.wrapperKey T) none ∨
    ∃ e jv y t, db (s.wrapperKey T) = some e ∧ s.wrapperKey e.val ≠ s.wrapperKey T ∧
      db (s.wrapperKey e.val) = some ⟨jv, y⟩ ∧ J.Unmarshal jv = .ok t ∧
      Function.update db (s.wrapperKey T) none
        (s.wrapperKey (if isRefresh then t.Access else t.Refresh)) = none ∧
      (s.removeToken J db T isRefresh).2 =
        Function.update (Function.update db (s.wrapperKey T) none) (s.wrapperKey e.val) none := by
  cases hT : db (s.wrapperKey T) with
  | none =>
    left
    simp [removeToken, getBasicID, parseBasicID, clienter.Get, checkError, hT]
  | some e =>
    by_cases he : e.val = ""
    · left
      simp [removeToken, getBasicID, parseBasicID, clienter.Get, checkError, hT, he]
    · by_cases hself : s.wrapperKey e.val = s.wrapperKey T
      · right; left
        have hx : Function.update db (s.wrapperKey T) none (s.wrapperKey e.val) = none := by
          rw [hself]; simp
        simp [removeToken, getBasicID, parseBasicID, clienter.Get, checkError, hT, he, remove,
          clienter.Del, getToken, parseToken, hx]
      · cases hrec : db (s.wrapperKey e.val) with
        | none =>
          right; left
          simp [removeToken, getBasicID, parseBasicID, clienter.Get, checkError, hT, he, remove,
            clienter.Del, getToken, parseToken, Function.update_noteq hself, hrec]
        | some e1 =>
          cases hu : J.Unmarshal e1.val with
          | error err =>
            right; left
            simp [removeToken, getBasicID, parseBasicID, clienter.Get, checkError, hT, he, remove,
              clienter.Del, getToken, parseToken, Function.update_noteq hself, hrec, hu]
          | ok t =>
            cases hsib : Function.update db (s.wrapperKey T) none
                (s.wrapperKey (if isRefresh then t.Access else t.Refresh)) with
            | none =>
              right; right
              refine ⟨e, e1.val, e1.expiration, t, rfl, hself, hrec, hu, hsib, ?_⟩
              simp [removeToken, getBasicID, parseBasicID, clienter.Get, checkError, hT, he,
                remove, clienter.Del, getToken, parseToken, Function.update_noteq hself, hrec, hu,
                clienter.Exists, hsib]
            | some e2 =>
              right; left
              simp [removeToken, getBasicID, parseBasicID, clienter.Get, checkError, hT, he,
                remove, clienter.Del, getToken, parseToken, Function.update_noteq hself, hrec, hu,
                clienter.Exists, hsib]

/-- `removeToken` keeps the state linked, when it is called on a string that is not a basic
identifier in use and that, if it resolves to a record, is the token of that record on
whose side it is removed. -/
theorem Linked_removeToken {J : JSON} {s : RedisTokenStore} {db : Redis} (h : Linked J s db)
    (T : Bytes) (isRefresh : Bool) (hT : ¬ InUse db T)
    (hside : ∀ e t, db (s.wrapperKey T) = some e → s.getToken J db e.val = (some t, none) →
      (if isRefresh then t.Refresh else t.Access) = T) :
    Linked J s (s.removeToken J db T isRefresh).2 := by
  have hdel : Linked J s (Function.update db (s.wrapperKey T) none) :=
    Linked_del h _ (fun k e _ hk hb => not_target hT k e hk hb)
  rcases removeToken_cases J s db T isRefresh with h0 | h1 | ⟨e, jv, y, t, hk, hself, hrec, hu, hsib, h2⟩
  · rw [h0]; exact h
  · rw [h1]; exact hdel
  · rw [h2]
    refine Linked_del hdel _ ?_
    intro k e' hne hk' hb' heq
    have hkT : k ≠ s.wrapperKey T := by
      rintro rfl
      simp at hk'
    rw [Function.update_noteq hkT] at hk'
    have hval : e'.val = e.val := (wrapperKey_inj s).1 heq
    obtain ⟨e1, t1, g1, g2, g3⟩ := h k e' hk' hb'
    rw [hval, hrec] at g1
    cases g1
    rw [hu] at g2
    cases g2
    have hget : s.getToken J db e.val = (some t, none) := by
      simp [getToken, parseToken, clienter.Get, checkError, hrec, hu]
    have hTt := hside e t hk hget
    cases isRefresh with
    | false =>
      simp only [Bool.false_eq_true, if_false] at hTt
      have hsib : Function.update db (s.wrapperKey T) none (s.wrapperKey t.Refresh) = none := by
        simpa using hsib
      rcases g3 with g3 | g3
      · exact hkT (by rw [g3, hTt])
      · rw [← g3, Function.update_noteq hkT, hk'] at hsib
        exact absurd hsib (by simp)
    | true =>
      simp only [if_true] at hTt
      have hsib : Function.update db (s.wrapperKey T) none (s.wrapperKey t.Access) = none := by
        simpa using hsib
      rcases g3 with g3 | g3
      · rw [← g3, Function.update_noteq hkT, hk'] at hsib
        exact absurd hsib (by simp)
      · exact hkT (by rw [g3, hTt])

/-- The states of disciplined callers are linked. -/
theorem Disciplined_linked {J : JSON} {s : RedisTokenStore} {db : Redis}
    (h : Disciplined J s db) : Linked J s db := by
  induction h with
  | empty =>
    intro k e hk
    simp [emptyRedis] at hk
  | create ct rnd info _ hfresh hbA hbR hC hA hR hvA hvR ih =>
    exact Linked_create ih ct rnd info hfresh hbA hbR hC hA hR hvA hvR
  | removeByCode code _ hC ih =>
    exact Linked_del ih _ (fun k e _ hk hb => not_target hC k e hk hb)
  | removeByAccess access _ hT hside ih =>
    exact Linked_removeToken ih access false hT (by simpa using hside)
  | removeByRefresh refresh _ hT hside ih =>
    exact Linked_removeToken ih refresh true hT (by simpa using hside)

end RedisTokenStore

/-- C4, as amended. Invariant I1 holds in every state that disciplined callers reach from
the empty store, callers that keep the kinds of keys apart and create records whose access
and refresh tokens are valid UTF-8: whenever a key holds a basic identifier, the full record
of that identifier is found. -/
theorem Disciplined_noDangling (J : JSON) (s : RedisTokenStore) (db : Redis)
    (h : Disciplined J s db) : NoDangling J s db :=
  RedisTokenStore.Linked_noDangling (RedisTokenStore.Disciplined_linked h)

set_option maxRecDepth 1000000 in
/-- C4 as claimed fails. `Create` of `sampleToken` in the empty store and then
`RemoveByAccess` of its refresh token `R` reach a state where the access key `oauth2:A`
still holds the basic identifier while the record of that identifier is gone: `removeToken`
deletes the key `R`, finds that the refresh token of the record has no key, and deletes
the record. -/
theorem Reachable_dangling :
    Reachable sampleJSON sampleStore
      (sampleStore.RemoveByAccess sampleJSON
        (sampleStore.Create sampleJSON emptyRedis 1001 7 sampleToken).2 "R").2 ∧
    (sampleStore.RemoveByAccess sampleJSON
        (sampleStore.Create sampleJSON emptyRedis 1001 7 sampleToken).2 "R").2 "oauth2:A" =
      some ⟨"00000000-0000-4000-8000-000000000007", 7200000000000⟩ ∧
    (sampleStore.RemoveByAccess sampleJSON
        (sampleStore.Create sampleJSON emptyRedis 1001 7 sampleToken).2 "R").2
      "oauth2:00000000-0000-4000-8000-000000000007" = none ∧
    ¬ NoDangling sampleJSON sampleStore
      (sampleStore.RemoveByAccess sampleJSON
        (sampleStore.Create sampleJSON emptyRedis 1001 7 sampleToken).2 "R").2 ∧
    ¬ (∀ (J : JSON) (s : RedisTokenStore) (db : Redis), Reachable J s db → NoDangling J s db) := by
  have hreach : Reachable sampleJSON sampleStore
      (sampleStore.RemoveByAccess sampleJSON
        (sampleStore.Create sampleJSON emptyRedis 1001 7 sampleToken).2 "R").2 :=
    Reachable.removeByAccess "R"
      (Reachable.create 1001 7 sampleToken Reachable.empty rfl (by decide) (by decide))
  have hA : (sampleStore.RemoveByAccess sampleJSON
        (sampleStore.Create sampleJSON emptyRedis 1001 7 sampleToken).2 "R").2 "oauth2:A" =
      some ⟨"00000000-0000-4000-8000-000000000007", 7200000000000⟩ := by decide
  have hno : ¬ NoDangling sampleJSON sampleStore
      (sampleStore.RemoveByAccess sampleJSON
        (sampleStore.Create sampleJSON emptyRedis 1001 7 sampleToken).2 "R").2 := by
    intro h
    obtain ⟨t, ht⟩ := h "oauth2:A" _ hA ⟨7, by decide⟩
    have hg : sampleStore.getToken sampleJSON
        (sampleStore.RemoveByAccess sampleJSON
          (sampleStore.Create sampleJSON emptyRedis 1001 7 sampleToken).2 "R").2
        "00000000-0000-4000-8000-000000000007" = (none, none) := by decide
    rw [hg] at ht
    cases ht
  exact ⟨hreach, hA, by decide, hno, fun hall => hno (hall _ _ _ hreach)⟩

set_option maxRecDepth 1000000 in
/-- C4 as amended, at `sampleToken`: `Create` in the empty store and then `RemoveByAccess`
of its access token `A` keep invariant I1. -/
theorem Disciplined_noDangling_witness :
    NoDangling sampleJSON sampleStore
      (sampleStore.RemoveByAccess sampleJSON
        (sampleStore.Create sampleJSON emptyRedis 1001 7 sampleToken).2 "A").2 := by
  have hempty : ∀ v, ¬ InUse emptyRedis v := by
    rintro v ⟨_, k, e, h, _⟩
    cases h
  have hA : (sampleStore.Create sampleJSON emptyRedis 1001 7 sampleToken).2 "oauth2:A" =
      some ⟨"00000000-0000-4000-8000-000000000007", 7200000000000⟩ := by decide
  have hg : sampleStore.getToken sampleJSON
      (sampleStore.Create sampleJSON emptyRedis 1001 7 sampleToken).2
      "00000000-0000-4000-8000-000000000007" = (some sampleToken, none) := by decide
  have hm : sampleJSON.Marshal sampleToken = .ok sampleTokenJSON := rfl
  refine Disciplined_noDangling sampleJSON sampleStore _
    (Disciplined.removeByAccess "A"
      (Disciplined.create 1001 7 sampleToken Disciplined.empty rfl (by decide) (by decide)
        (hempty _) (hempty _) (hempty _) (by decide) (by decide)) ?_ ?_)
  · rintro ⟨_, k, e, h, hv⟩
    simp only [RedisTokenStore.Create, hm, RedisTokenStore.createPipe, Pipeliner.Exec,
      Pipeliner.Set, List.foldl, Function.update_apply, emptyRedis] at h
    split_ifs at h <;> cases h <;> exact absurd hv (by decide)
  · intro e t he hget
    have he1 := hA.symm.trans he
    cases he1
    rw [hg] at hget
    cases hget
    rfl

end OAuth2

/-! # Theorems on lookups, padding, the handlers and the grant types -/

namespace OAuth2

namespace RedisTokenStore

/-- C11. When the namespaced key of a token string is absent, `RemoveByAccess` and
`RemoveByRefresh` return nil and leave the store as it is, every key with the entry it
had. -/
theorem removeToken_absent_noop (J : JSON) (s : RedisTokenStore) (db : Redis) (token : Bytes)
    (h : db (s.wrapperKey token) = none) :
    s.RemoveByAccess J db token = (none, db) ∧ s.RemoveByRefresh J db token = (none, db) := by
  simp [RemoveByAccess, RemoveByRefresh, removeToken, getBasicID, parseBasicID, clienter.Get,
    checkError, h]

/-- C12. Lookup misses are not errors. A key that is absent gives (no record, no error) in
`GetByCode`, `GetByAccess` and `GetByRefresh`; so does, in `GetByAccess` and `GetByRefresh`,
a pointer key whose basic identifier has no record. On the replies themselves: the error
`redis.Nil` is turned into no record and no error, and any other error of the backend is
returned as the error. -/
theorem lookup_miss_not_error (J : JSON) (s : RedisTokenStore) (db : Redis) (key : Bytes) :
    (db (s.wrapperKey key) = none →
      s.GetByCode J db key = (none, none) ∧ s.GetByAccess J db key = (none, none) ∧
      s.GetByRefresh J db key = (none, none)) ∧
    (∀ e, db (s.wrapperKey key) = some e → db (s.wrapperKey e.val) = none →
      s.GetByAccess J db key = (none, none) ∧ s.GetByRefresh J db key = (none, none)) ∧
    (∀ v, parseToken J ⟨v, some Error.Nil⟩ = (none, none) ∧
      parseBasicID ⟨v, some Error.Nil⟩ = (("" : Bytes), none)) ∧
    (∀ v msg, parseToken J ⟨v, some (Error.other msg)⟩ = (none, some (Error.other msg)) ∧
      parseBasicID ⟨v, some (Error.other msg)⟩ = (("" : Bytes), some (Error.other msg))) := by
  refine ⟨fun h => ⟨(lookup_absent h).2.2, (lookup_absent h).1, (lookup_absent h).2.1⟩,
    ?_, ?_, ?_⟩
  · intro e h1 h2
    by_cases he : e.val = ""
    · simp [GetByAccess, GetByRefresh, getBasicID, parseBasicID, clienter.Get, checkError, h1, he]
    · simp [GetByAccess, GetByRefresh, getBasicID, parseBasicID, getToken, parseToken,
        clienter.Get, checkError, h1, h2, he]
  · intro v
    simp [parseToken, parseBasicID, checkError]
  · intro v msg
    simp [parseToken, parseBasicID, checkError]

end RedisTokenStore

theorem rdropWhile_append_replicate {α : Type} (p : α → Bool) (l : List α) (c : α) (n : Nat)
    (hc : p c = true) : (l ++ List.replicate n c).rdropWhile p = l.rdropWhile p := by
  induction n with
  | zero => simp
  | succ n ih =>
    rw [List.replicate_succ', ← List.append_assoc, List.rdropWhile_concat_pos _ _ _ hc, ih]

/-- C13. With method `S256`, `Validate` gives the same answer for a challenge and for that
challenge followed by any number of `=` characters. -/
theorem Validate_S256_padding (cc ver : String) (n : Nat) :
    Validate CodeChallengeS256 (cc ++ String.mk (List.replicate n '=')) ver =
      Validate CodeChallengeS256 cc ver := by
  have h : CodeChallengeS256 ≠ CodeChallengePlain := by decide
  have ht : TrimRight (cc ++ String.mk (List.replicate n '=')) "=" = TrimRight cc "=" := by
    simp only [TrimRight, String.data_append]
    rw [rdropWhile_append_replicate _ _ _ _ (by decide)]
  simp only [Validate, h, if_false, if_true, ht]

/-- C15. `ClientFormHandler` returns `ErrInvalidClient`, with empty id and secret, exactly
when the form value of `client_id` is empty; otherwise it returns the form values of
`client_id` and `client_secret` as they are, with a nil error. -/
theorem ClientFormHandler_spec (rctx : RequestContext) :
    (ClientFormHandler rctx = ("", "", some ErrInvalidClient) ↔
      rctx.FormValue "client_id" = "") ∧
    ((ClientFormHandler rctx).2.2 = some ErrInvalidClient ↔ rctx.FormValue "client_id" = "") ∧
    (rctx.FormValue "client_id" ≠ "" →
      ClientFormHandler rctx =
        (rctx.FormValue "client_id", rctx.FormValue "client_secret", none)) := by
  by_cases h : rctx.FormValue "client_id" = ""
  · simp [ClientFormHandler, B2s, h]
  · simp [ClientFormHandler, B2s, h]

/-- C15 at three requests: with id and secret, with an id and an empty secret, and without
form values. -/
theorem ClientFormHandler_spec_witness :
    ClientFormHandler sampleForm = ("111111", "11111111", none) ∧
    ClientFormHandler sampleFormNoSecret = ("111111", "", none) ∧
    ClientFormHandler sampleFormEmpty = ("", "", some ErrInvalidClient) :=
  ⟨(ClientFormHandler_spec sampleForm).2.2 (by decide),
   (ClientFormHandler_spec sampleFormNoSecret).2.2 (by decide),
   (ClientFormHandler_spec sampleFormEmpty).1.2 rfl⟩

theorem SessionStore_Get_Delete (st : SessionStore) (key : String) :
    SessionStore.Get (SessionStore.Delete st key) key = none := by
  induction st with
  | nil => rfl
  | cons p rest ih =>
    obtain ⟨k, v⟩ := p
    by_cases h : k = key
    · simpa [SessionStore.Delete, h] using ih
    · simpa [SessionStore.Delete, SessionStore.Get, h] using ih

theorem SessionStore_Get_Set (st : SessionStore) (key : String) (v : Value) :
    SessionStore.Get (SessionStore.Set st key v) key = some v := by
  simp [SessionStore.Set, SessionStore.Get]

/-- C16, at the failing inputs. The check of the session in `userAuthorizeHandler` is the
wrong way round (`uid != nil`). For a store without `LoggedInUserID` the handler does not
redirect: it reaches `uid.(string)` with a nil `uid` and panics (`authHandler`, on the same
store, redirects to `/login`). For a store that holds a `LoggedInUserID` it redirects to
`/login` with status 302 and returns the empty user id, not the stored one. -/
theorem userAuthorizeHandler_inverted (st : HandlerState) (v : String) :
    userAuthorizeHandler { st with store := SessionStore.Delete st.store "LoggedInUserID" } =
      .panicked "interface conversion: interface is nil, not string" ∧
    (authHandlerRedirect { st with store := SessionStore.Delete st.store "LoggedInUserID" }).isSome
      = true ∧
    (∃ st1, userAuthorizeHandler
        { st with store := SessionStore.Set st.store "LoggedInUserID" (.str v) } =
        .returned ("", none, st1) ∧
      st1.header = headerSet st.header "Location" "/login" ∧ st1.statusCode = 302) ∧
    userAuthorizeHandler freshSession =
      .panicked "interface conversion: interface is nil, not string" ∧
    (∃ st1, userAuthorizeHandler loggedInSession = .returned ("", none, st1) ∧
      st1.header = [("Location", "/login")] ∧ st1.statusCode = 302) := by
  refine ⟨?_, ?_, ?_, by decide, ⟨_, rfl, by decide, by decide⟩⟩
  · simp [userAuthorizeHandler, SessionStore_Get_Delete, assertString]
  · simp [authHandlerRedirect, SessionStore_Get_Delete]
  · simp [userAuthorizeHandler, SessionStore_Get_Set, StatusFound]

/-- C17. `GrantType.String` returns the grant itself for `authorization_code`, `password`,
`client_credentials` and `refresh_token`, and the empty string for every other grant,
`__implicit` among them; so the result is not empty exactly for those four. -/
theorem GrantType_String_spec (gt : GrantType) :
    (gt = AuthorizationCode ∨ gt = PasswordCredentials ∨ gt = ClientCredentials ∨
        gt = Refreshing → GrantType.String gt = gt) ∧
    (¬ (gt = AuthorizationCode ∨ gt = PasswordCredentials ∨ gt = ClientCredentials ∨
        gt = Refreshing) → GrantType.String gt = "") ∧
    GrantType.String Implicit = "" ∧
    (GrantType.String gt ≠ "" ↔
      gt = AuthorizationCode ∨ gt = PasswordCredentials ∨ gt = ClientCredentials ∨
        gt = Refreshing) := by
  refine ⟨fun h => by simp [GrantType.String, h], fun h => by simp [GrantType.String, h],
    by decide, ?_⟩
  by_cases h : gt = AuthorizationCode ∨ gt = PasswordCredentials ∨ gt = ClientCredentials ∨
      gt = Refreshing
  · simp only [GrantType.String, h, if_true, iff_true]
    rcases h with h | h | h | h <;> subst h <;> decide
  · simp [GrantType.String, h]

/-- C17 at the five declared grants and at the empty grant. -/
theorem GrantType_String_spec_witness :
    GrantType.String "authorization_code" = "authorization_code" ∧
    GrantType.String "password" = "password" ∧
    GrantType.String "client_credentials" = "client_credentials" ∧
    GrantType.String "refresh_token" = "refresh_token" ∧
    GrantType.String "__implicit" = "" ∧ GrantType.String "" = "" :=
  ⟨(GrantType_String_spec "authorization_code").1 (by decide),
   (GrantType_String_spec "password").1 (by decide),
   (GrantType_String_spec "client_credentials").1 (by decide),
   (GrantType_String_spec "refresh_token").1 (by decide),
   (GrantType_String_spec "__implicit").2.1 (by decide),
   (GrantType_String_spec "").2.1 (by decide)⟩

set_option maxRecDepth 1000000 in
/-- C11 at the store that holds `sampleToken`: the token `X` has no key. -/
theorem removeToken_absent_noop_witness :
    (sampleStore.Create sampleJSON emptyRedis 1001 7 sampleToken).2 "oauth2:X" = none ∧
    sampleStore.RemoveByAccess sampleJSON
        (sampleStore.Create sampleJSON emptyRedis 1001 7 sampleToken).2 "X" =
      (none, (sampleStore.Create sampleJSON emptyRedis 1001 7 sampleToken).2) ∧
    sampleStore.RemoveByRefresh sampleJSON
        (sampleStore.Create sampleJSON emptyRedis 1001 7 sampleToken).2 "X" =
      (none, (sampleStore.Create sampleJSON emptyRedis 1001 7 sampleToken).2) :=
  ⟨by decide,
   RedisTokenStore.removeToken_absent_noop sampleJSON sampleStore _ "X" (by decide)⟩

set_option maxRecDepth 1000000 in
/-- C12 at the store that holds `sampleToken`: the key `X` is absent; and once the record
of the basic identifier is deleted, the pointer `A` resolves to an identifier without
record. -/
theorem lookup_miss_not_error_witness :
    sampleStore.GetByCode sampleJSON
      (sampleStore.Create sampleJSON emptyRedis 1001 7 sampleToken).2 "X" = (none, none) ∧
    sampleStore.GetByAccess sampleJSON
      (sampleStore.RemoveByCode (sampleStore.Create sampleJSON emptyRedis 1001 7 sampleToken).2
        "00000000-0000-4000-8000-000000000007").2 "A" = (none, none) :=
  ⟨((RedisTokenStore.lookup_miss_not_error sampleJSON sampleStore _ "X").1 (by decide)).1,
   ((RedisTokenStore.lookup_miss_not_error sampleJSON sampleStore _ "A").2.1
      ⟨"00000000-0000-4000-8000-000000000007", 7200000000000⟩ (by decide) (by decide)).1⟩

end OAuth2
